import Mathlib

/-! jlApns: frame codec and session of the binary push-notification client

A shallow embedding of `jlApnsPayload.go` (frame codec) and `jlApns.go`
(session) together with the properties established about them.

Conventions of the embedding:

* a Go `[]byte` and a Go `string` are lists of byte values (`List Nat`);
* a conversion `uintN(x)` written in the source is `x % 2 ^ N`;
* a Go `error` result is a value of `GoError`; a `nil` pointer is `none`;
* the writes of `binary.Write` into a `bytes.Buffer` append to a list.
-/

namespace JlApns

/-! ## Errors -/

/-- The error values the two source files can return. -/
inductive GoError where
  /-- The `InvalidByteError` of `encoding/hex`, carrying the offending byte. -/
  | hexInvalidByte (b : Nat)
  /-- The `ErrLength` of `encoding/hex`: odd-length input. -/
  | hexErrLength
  /-- The error `errors.New("device token has incorrect length")`. -/
  | tokenLength
  /-- The error `errors.New("unknown bug for encode length")`. -/
  | encodeLength
  /-- The error `errors.New("Invalid args")`. -/
  | invalidArgs
  /-- The error `errors.New("Not Connect")`. -/
  | notConnect
  /-- The error `errors.New("connecting")`. -/
  | connecting
  /-- The error `errors.New("Timeout connect")`. -/
  | timeoutConnect
  /-- The error `errors.New("Timeout Handshake")`. -/
  | timeoutHandshake
  /-- An error handed back by a collaborator (JSON marshalling, transport). -/
  | collaborator (msg : String)
  deriving DecidableEq, Repr

/-- The text of an error, as `err.Error()` gives it for the errors built in the source. -/
def GoError.message : GoError → String
  | .hexInvalidByte _ => "encoding/hex: invalid byte"
  | .hexErrLength => "encoding/hex: odd length hex string"
  | .tokenLength => "device token has incorrect length"
  | .encodeLength => "unknown bug for encode length"
  | .invalidArgs => "Invalid args"
  | .notConnect => "Not Connect"
  | .connecting => "connecting"
  | .timeoutConnect => "Timeout connect"
  | .timeoutHandshake => "Timeout Handshake"
  | .collaborator msg => msg

/-- The errors that report a malformed device token: the two errors of the
hexadecimal decoder and the wrong-length error. -/
def GoError.isMalformedToken : GoError → Bool
  | .hexInvalidByte _ => true
  | .hexErrLength => true
  | .tokenLength => true
  | _ => false

/-! ## Library routines used by the codec -/

/-- The table `reverseHexTable` of Go's `encoding/hex`: the value of a
hexadecimal digit, and `0xff` for every other byte. -/
def fromHexChar (c : Nat) : Nat :=
  if 48 ≤ c ∧ c ≤ 57 then c - 48
  else if 97 ≤ c ∧ c ≤ 102 then c - 97 + 10
  else if 65 ≤ c ∧ c ≤ 70 then c - 65 + 10
  else 255

/-- Go's `hex.DecodeString`: pairs of digits are decoded left to right, the
first invalid digit is reported, and a trailing single valid digit gives
`ErrLength`. -/
def hexDecodeString : List Nat → Except GoError (List Nat)
  | [] => .ok []
  | [p] =>
    if fromHexChar p > 15 then .error (.hexInvalidByte p) else .error .hexErrLength
  | p :: q :: rest =>
    if fromHexChar p > 15 then .error (.hexInvalidByte p)
    else if fromHexChar q > 15 then .error (.hexInvalidByte q)
    else
      match hexDecodeString rest with
      | .ok bs => .ok ((fromHexChar p <<< 4 ||| fromHexChar q) :: bs)
      | .error e => .error e

/-- The conversion `uint32(x)` of a signed integer: its value modulo `2 ^ 32`. -/
def uint32OfInt (x : Int) : Nat := (x % 2 ^ 32).toNat

/-- Writing a `uint8` with `binary.Write`: one byte. -/
def writeUint8 (v : Nat) : List Nat := [v % 256]

/-- Writing a `uint16` with `binary.Write` in `binary.BigEndian` order
(`PutUint16`: `byte(v >> 8)`, `byte(v)`). -/
def writeUint16BE (v : Nat) : List Nat := [(v >>> 8) % 256, v % 256]

/-- Writing a `uint32` with `binary.Write` in `binary.BigEndian` order
(`PutUint32`: `byte(v >> 24)`, `byte(v >> 16)`, `byte(v >> 8)`, `byte(v)`). -/
def writeUint32BE (v : Nat) : List Nat :=
  [(v >>> 24) % 256, (v >>> 16) % 256, (v >>> 8) % 256, v % 256]

/-- Reading a `uint32` with `binary.Read` in `binary.LittleEndian` order
(`Uint32`: `b[0] | b[1]<<8 | b[2]<<16 | b[3]<<24`). A reader holding fewer than
four bytes leaves the destination at its zero value. -/
def readUint32LE (b : List Nat) : Nat :=
  match b with
  | [b0, b1, b2, b3] => b0 ||| b1 <<< 8 ||| b2 <<< 16 ||| b3 <<< 24
  | _ => 0

/-! ## jlApnsPayload.go -/

/-- The decoded error response of the gateway. -/
structure FailInfo where
  /-- The identifier of the notification the response is about (`uint32`). -/
  Pid : Nat
  /-- The status code (`uint8`). -/
  Code : Nat
  deriving DecidableEq, Repr

/-- The function `NewFailInfoFromByte`; `none` is the `nil` result. -/
def NewFailInfoFromByte (data : List Nat) : Option FailInfo :=
  if data.length ≠ 6 ∨ data.getD 0 0 ≠ 8 then
    none
  else
    let buf := (data.drop 2).take (6 - 2)
    let value := readUint32LE buf
    some { Pid := value, Code := data.getD 1 0 % 256 }

/-- Item id of the device token. -/
def deviceTokenItemid : Nat := 1
/-- Item id of the payload. -/
def payloadItemid : Nat := 2
/-- Item id of the notification identifier. -/
def notificationIdentifierItemid : Nat := 3
/-- Item id of the expiration date. -/
def expirationDateItemid : Nat := 4
/-- Item id of the priority. -/
def priorityItemid : Nat := 5

/-- The function `EncodePushNotificationToData`. The buffer `frameBuffer` is
the list of bytes written so far. -/
def EncodePushNotificationToData (identifier : Int) (expiry : Nat)
    (tokenString : List Nat) (payloadData : List Nat) (priority : Nat) :
    Except GoError (List Nat) :=
  match hexDecodeString tokenString with
  | .error err => .error err
  | .ok token =>
    if token.length ≠ 32 then
      .error .tokenLength
    else
      let payloadData :=
        if payloadData.length > 2048 then payloadData.take 2048 else payloadData
      let totolLen :=
        1 + 4 + (1 + 2 + 32) + (1 + 2 + payloadData.length) + (1 + 2 + 4) + (1 + 2 + 4)
          + (1 + 2 + 1)
      let frameBuffer : List Nat := []
      let frameBuffer := frameBuffer ++ writeUint8 2
      let frameBuffer := frameBuffer ++ writeUint32BE ((totolLen - 5) % 2 ^ 32)
      let frameBuffer := frameBuffer ++ writeUint8 deviceTokenItemid
      let frameBuffer := frameBuffer ++ writeUint16BE 32
      let frameBuffer := frameBuffer ++ token
      let frameBuffer := frameBuffer ++ writeUint8 payloadItemid
      let frameBuffer := frameBuffer ++ writeUint16BE (payloadData.length % 2 ^ 16)
      let frameBuffer := frameBuffer ++ payloadData
      let frameBuffer := frameBuffer ++ writeUint8 notificationIdentifierItemid
      let frameBuffer := frameBuffer ++ writeUint16BE 4
      let frameBuffer := frameBuffer ++ writeUint32BE (uint32OfInt identifier)
      let frameBuffer := frameBuffer ++ writeUint8 expirationDateItemid
      let frameBuffer := frameBuffer ++ writeUint16BE 4
      let frameBuffer := frameBuffer ++ writeUint32BE (expiry % 2 ^ 32)
      let frameBuffer := frameBuffer ++ writeUint8 priorityItemid
      let frameBuffer := frameBuffer ++ writeUint16BE 1
      let frameBuffer := frameBuffer ++ writeUint8 priority
      let buf := frameBuffer
      if buf.length ≠ totolLen then
        .error .encodeLength
      else
        .ok buf

/-! ## jlApns.go -/

/-- Connection state `StateDisconnect` (`iota` value 0). -/
def StateDisconnect : Int := 0
/-- Connection state `StateConncting` (`iota` value 1). -/
def StateConncting : Int := 1
/-- Connection state `StateConncted` (`iota` value 2). -/
def StateConncted : Int := 2

/-- The map `ApplePushResponses` from status code to label, as its list of entries. -/
def ApplePushResponses : List (Nat × String) :=
  [(0, "NO_ERRORS"),
   (1, "PROCESSING_ERROR"),
   (2, "MISSING_DEVICE_TOKEN"),
   (3, "MISSING_TOPIC"),
   (4, "MISSING_PAYLOAD"),
   (5, "INVALID_TOKEN_SIZE"),
   (6, "INVALID_TOPIC_SIZE"),
   (7, "INVALID_PAYLOAD_SIZE"),
   (8, "INVALID_TOKEN"),
   (10, "SHUTDOWN"),
   (255, "UNKNOWN")]

/-- The two-result lookup `v, ok := m[k]` of a Go map: `none` when the key is absent. -/
def mapLookup (m : List (Nat × String)) (k : Nat) : Option String := m.lookup k

/-- The index expression `m[k]` of a Go map: the zero value `""` when the key is absent. -/
def mapIndex (m : List (Nat × String)) (k : Nat) : String := (mapLookup m k).getD ""

/-- The session. A transport handle or channel is a number; `none` is `nil`. -/
structure APNSession where
  /-- The gateway address. -/
  Gateway : String
  /-- Path of the certificate file. -/
  CertificateFile : String
  /-- Path of the key file. -/
  KeyFile : String
  /-- Raw certificate block. -/
  CertificateBase64 : String
  /-- Raw key block. -/
  KeyBase64 : String
  /-- The raw transport handle. -/
  conn : Option Nat
  /-- The encrypted transport handle. -/
  tlsConn : Option Nat
  /-- The channel decoded responses are published to. -/
  ResponseChan : Option Nat
  /-- The connection state. -/
  state : Int
  deriving DecidableEq, Repr

/-- What a session operation does to its environment, in the order it does it. -/
inductive Effect where
  /-- The call `a.conn.Close()` on the raw transport. -/
  | connClose (h : Nat)
  /-- The call `a.tlsConn.Close()` on the encrypted transport. -/
  | tlsClose (h : Nat)
  /-- The call `a.tlsConn.Write(buf)`. -/
  | tlsWrite (h : Nat) (buf : List Nat)
  /-- The send `a.ResponseChan <- info`. -/
  | chanSend (ch : Nat) (info : FailInfo)
  /-- The call `net.Dial("tcp", a.Gateway)`. -/
  | netDial
  /-- The call `a.tlsConn.Handshake()` on the encrypted transport just created. -/
  | tlsHandshake (h : Nat)
  deriving DecidableEq, Repr

/-- How a call ends: with a returned value, or in the runtime panic of a
method call or field access through a `nil` pointer. -/
inductive Return (α : Type) where
  /-- The call returned. -/
  | value (v : α)
  /-- The call dereferenced a `nil` pointer. -/
  | nilDereference
  deriving DecidableEq, Repr

/-- The method `State`. -/
def APNSession.State (a : APNSession) : Int := a.state

/-- The constructor `NewAPNSession`; the fields it does not set hold their zero values. -/
def NewAPNSession (gateway certificateFile keyFile : String) (responseChan : Option Nat) :
    APNSession :=
  { Gateway := gateway
    CertificateFile := certificateFile
    KeyFile := keyFile
    CertificateBase64 := ""
    KeyBase64 := ""
    conn := none
    tlsConn := none
    ResponseChan := responseChan
    state := StateDisconnect }

/-- The method `Close`: the session afterwards and the handles it closed. -/
def APNSession.Close (a : APNSession) : APNSession × List Effect :=
  let r1 : APNSession × List Effect :=
    match a.conn with
    | some h => ({ a with conn := none }, [Effect.connClose h])
    | none => (a, [])
  let r2 : APNSession × List Effect :=
    match r1.1.tlsConn with
    | some h => ({ r1.1 with tlsConn := none }, [Effect.tlsClose h])
    | none => (r1.1, [])
  (r2.1, r1.2 ++ r2.2)

/-- The method `Send`. The JSON serialisation of the payload (`toJsonData`) and
the answer of the transport to the write (`tlsWrite`, `none` for a `nil` error)
are given by the environment. The result is the returned error, the session
afterwards and the effects performed. -/
def APNSession.Send {P : Type} (toJsonData : P → Except GoError (List Nat))
    (tlsWrite : List Nat → Option GoError) (a : APNSession) (sendIdentifier : Int)
    (payload : Option P) (token : List Nat) (expiration : Nat) :
    Return (Option GoError) × APNSession × List Effect :=
  match payload with
  | none => (.value (some .invalidArgs), a, [])
  | some p =>
    if token.length ≠ 32 * 2 then
      (.value (some .invalidArgs), a, [])
    else if a.state ≠ StateConncted then
      (.value (some .notConnect), a, [])
    else
      match toJsonData p with
      | .error err => (.value (some err), a, [])
      | .ok payloadData =>
        match EncodePushNotificationToData sendIdentifier expiration token payloadData 10 with
        | .error err => (.value (some err), a, [])
        | .ok buf =>
          match a.tlsConn with
          | none => (.nilDereference, a, [])
          | some h =>
            match tlsWrite buf with
            | some err => (.value (some err), a, [Effect.tlsWrite h buf])
            | none => (.value none, a, [Effect.tlsWrite h buf])

/-- One answer of the transport to `a.tlsConn.Read(buffer)`: the bytes it
stores at the front of the buffer and the error it returns. -/
structure ReadResult where
  /-- The bytes read. -/
  data : List Nat
  /-- The error returned, `none` for `nil`. -/
  err : Option GoError
  deriving DecidableEq, Repr

/-- How the receive loop ends on a finite sequence of read results. -/
inductive LoopExit where
  /-- The loop was left by `break` (or the method returned before it). -/
  | returned
  /-- The given read results are used up: the loop is blocked in `Read`. -/
  | waiting
  /-- The loop dereferenced a `nil` pointer. -/
  | nilDereference
  deriving DecidableEq, Repr

/-- The `for` loop of `RecvRespnose`, run on the read results the transport
gives in turn; `buffer` is the six-byte read buffer, kept across iterations. -/
def APNSession.recvLoop :
    List ReadResult → APNSession → List Nat → LoopExit × APNSession × List Effect
  | [], a, _ => (.waiting, a, [])
  | r :: rs, a, buffer =>
    match a.tlsConn with
    | none => (.nilDereference, a, [])
    | some _ =>
      let got := r.data.take buffer.length
      let buffer := got ++ buffer.drop got.length
      if r.err = none ∧ buffer.getD 0 0 = 8 then
        match NewFailInfoFromByte buffer with
        | none => (.nilDereference, a, [])
        | some info =>
          if info.Code = 10 then
            let c := a.Close
            (.returned, c.1, c.2)
          else
            match a.ResponseChan with
            | some ch =>
              let rest := APNSession.recvLoop rs a buffer
              (rest.1, rest.2.1, Effect.chanSend ch info :: rest.2.2)
            | none => APNSession.recvLoop rs a buffer
      else
        let c := a.Close
        (.returned, c.1, c.2)

/-- The method `RecvRespnose`. -/
def APNSession.RecvRespnose (reads : List ReadResult) (a : APNSession) :
    LoopExit × APNSession × List Effect :=
  if a.ResponseChan = none ∨ a.state ≠ StateConncted then
    (.returned, a, [])
  else
    a.recvLoop reads (List.replicate 6 0)

/-- Go's `strings.Split(s, ":")` on the characters of `s`: the pieces between
the colons, one more than there are colons. -/
def splitColon : List Char → List (List Char)
  | [] => [[]]
  | c :: cs =>
    if c = ':' then [] :: splitColon cs
    else
      match splitColon cs with
      | [] => [[c]]
      | p :: ps => (c :: p) :: ps

/-- How a step that `Connect` races against `time.After` ends. -/
inductive Raced where
  /-- The step reported a `nil` error before the timer fired. -/
  | succeeded
  /-- The step reported an error before the timer fired. -/
  | failed (err : GoError)
  /-- The timer fired first. -/
  | timedOut
  deriving DecidableEq, Repr

/-- What the environment answers to one call of `Connect`. -/
structure ConnectEnv where
  /-- The error of `tls.LoadX509KeyPair(a.CertificateFile, a.KeyFile)`, `none` for `nil`. -/
  loadX509KeyPair : Option GoError
  /-- The error of `tls.X509KeyPair` on the raw blocks, `none` for `nil`. -/
  x509KeyPair : Option GoError
  /-- How the dial ends. -/
  dial : Raced
  /-- The handle `net.Dial` returns when it succeeds. -/
  connHandle : Nat
  /-- How the handshake ends. -/
  handshake : Raced
  /-- The handle `tls.Client` returns. -/
  tlsHandle : Nat
  deriving DecidableEq, Repr

/-- What `Connect` returns and does. -/
structure ConnectResult where
  /-- The returned error, `none` for `nil`. -/
  err : Option GoError
  /-- The session afterwards. -/
  session : APNSession
  /-- The effects performed. -/
  effects : List Effect
  /-- Whether `go a.RecvRespnose()` was started. -/
  receiving : Bool
  deriving DecidableEq, Repr

/-- The three ways through the state check at the head of `Connect`. -/
inductive ConnectEntry where
  /-- The state is Connected: `return` with the `nil` error. -/
  | returnNil
  /-- Another state that is not Disconnected: `return errors.New("connecting")`. -/
  | returnConnecting
  /-- The state is Disconnected: go on. -/
  | proceed
  deriving DecidableEq, Repr

/-- The state check at the head of `Connect`. -/
def APNSession.connectCheck (a : APNSession) : ConnectEntry :=
  if a.state ≠ StateDisconnect then
    if a.state = StateConncted then .returnNil else .returnConnecting
  else
    .proceed

/-- The assignment `a.state = StateConncting` after the state check. -/
def APNSession.connectMark (a : APNSession) : APNSession :=
  { a with state := StateConncting }

/-- The deferred function of `Connect`, run with the error being returned. -/
def APNSession.connectDeferred (a : APNSession) (err : Option GoError) : APNSession :=
  if err = none then { a with state := StateConncted } else { a with state := StateDisconnect }

/-- The body of `Connect` after the assignment of `StateConncting`: credential
loading, the address check, the raced dial, the raced handshake, and the
deferred function on every way out. -/
def APNSession.connectBody (env : ConnectEnv) (a : APNSession) : ConnectResult :=
  let certErr :=
    if a.CertificateBase64.length = 0 ∨ a.KeyBase64.length = 0 then env.loadX509KeyPair
    else env.x509KeyPair
  match certErr with
  | some err => ⟨some err, a.connectDeferred (some err), [], false⟩
  | none =>
    let gatewayParts := splitColon a.Gateway.toList
    if gatewayParts.length ≠ 2 then
      ⟨some .invalidArgs, a.connectDeferred (some .invalidArgs), [], false⟩
    else
      match env.dial with
      | .failed err =>
        let a := { a with conn := none }
        ⟨some err, a.connectDeferred (some err), [Effect.netDial], false⟩
      | .timedOut =>
        ⟨some .timeoutConnect, a.connectDeferred (some .timeoutConnect), [Effect.netDial], false⟩
      | .succeeded =>
        let a := { a with conn := some env.connHandle }
        match env.handshake with
        | .failed err =>
          let a := { a with tlsConn := none }
          ⟨some err, a.connectDeferred (some err),
            [Effect.netDial, Effect.tlsHandshake env.tlsHandle, Effect.tlsClose env.tlsHandle],
            false⟩
        | .timedOut =>
          let a := { a with tlsConn := some env.tlsHandle }
          ⟨some .timeoutHandshake, a.connectDeferred (some .timeoutHandshake),
            [Effect.netDial, Effect.tlsHandshake env.tlsHandle], false⟩
        | .succeeded =>
          let a := { a with tlsConn := some env.tlsHandle }
          ⟨none, a.connectDeferred none, [Effect.netDial, Effect.tlsHandshake env.tlsHandle],
            a.ResponseChan.isSome⟩

/-- The method `Connect`, with the answers of the environment given. -/
def APNSession.Connect (env : ConnectEnv) (a : APNSession) : ConnectResult :=
  match a.connectCheck with
  | .returnNil => ⟨none, a, [], false⟩
  | .returnConnecting => ⟨some .connecting, a, [], false⟩
  | .proceed => a.connectMark.connectBody env

/-! ## Two calls of `Connect` on one session -/

/-- Where a call of `Connect` stands: before the state check, between the
check and the assignment of `StateConncting`, before the body, or returned. -/
inductive ConnectPc where
  /-- Before the state check. -/
  | atCheck
  /-- Past the check, before `a.state = StateConncting`. -/
  | atMark
  /-- Past the assignment, before the body. -/
  | atBody
  /-- Returned with the given error. -/
  | finished (err : Option GoError)
  deriving DecidableEq, Repr

/-- One step of a call of `Connect` on the shared session. -/
def stepCall (env : ConnectEnv) (a : APNSession) (pc : ConnectPc) :
    APNSession × ConnectPc × List Effect :=
  match pc with
  | .atCheck =>
    match a.connectCheck with
    | .returnNil => (a, .finished none, [])
    | .returnConnecting => (a, .finished (some .connecting), [])
    | .proceed => (a, .atMark, [])
  | .atMark => (a.connectMark, .atBody, [])
  | .atBody =>
    let r := a.connectBody env
    (r.session, .finished r.err, r.effects)
  | .finished err => (a, .finished err, [])

/-- Two calls of `Connect` in progress on one session. -/
structure TwoCalls where
  /-- The shared session. -/
  session : APNSession
  /-- Where the first call stands. -/
  pc1 : ConnectPc
  /-- Where the second call stands. -/
  pc2 : ConnectPc
  /-- The effects performed so far by both calls. -/
  effects : List Effect
  deriving DecidableEq, Repr

/-- Running the two calls under a schedule: `true` lets the first call take
one step, `false` the second. -/
def TwoCalls.run (env1 env2 : ConnectEnv) : List Bool → TwoCalls → TwoCalls
  | [], s => s
  | true :: sched, s =>
    let r := stepCall env1 s.session s.pc1
    TwoCalls.run env1 env2 sched ⟨r.1, r.2.1, s.pc2, s.effects ++ r.2.2⟩
  | false :: sched, s =>
    let r := stepCall env2 s.session s.pc2
    TwoCalls.run env1 env2 sched ⟨r.1, s.pc1, r.2.1, s.effects ++ r.2.2⟩

/-! ## What the receive loop publishes -/

/-- The events sent to the response channel, in the order they were sent. -/
def publishedEvents : List Effect → List FailInfo
  | [] => []
  | Effect.chanSend _ info :: rest => info :: publishedEvents rest
  | _ :: rest => publishedEvents rest

/-- A read that succeeds and delivers six bytes starting with the tag 8. -/
def ReadResult.isFrame (r : ReadResult) : Prop :=
  r.err = none ∧ r.data.length = 6 ∧ r.data.head? = some 8

instance (r : ReadResult) : Decidable r.isFrame := by
  unfold ReadResult.isFrame
  infer_instance

/-! ## The wire format in the words of the specification -/

/-- The big-endian encoding of `n` in `k` bytes: the `k` lowest base-256 digits
of `n`, most significant first. -/
def BE : Nat → Nat → List Nat
  | 0, _ => []
  | k + 1, n => BE k (n / 256) ++ [n % 256]

/-- The number a big-endian byte sequence stands for. -/
def beValue (bs : List Nat) : Nat := bs.foldl (fun acc b => acc * 256 + b) 0

/-- The signed 32-bit value of an unsigned 32-bit pattern (two's complement). -/
def int32OfUint32 (n : Nat) : Int := if n < 2 ^ 31 then (n : Int) else (n : Int) - 2 ^ 32

/-- Reading items, each a 1-byte id, a 2-byte big-endian length and a body of
that length, until the input is used up; `none` when an item is cut short. -/
def parseItems : Nat → List Nat → Option (List (Nat × List Nat))
  | _, [] => some []
  | fuel + 1, id :: l1 :: l0 :: rest =>
    if rest.length < beValue [l1, l0] then none
    else
      match parseItems fuel (rest.drop (beValue [l1, l0])) with
      | some items => some ((id, rest.take (beValue [l1, l0])) :: items)
      | none => none
  | _, _ => none

/-- Reading a frame by the framing of the encoder: a 1-byte command, a 4-byte
big-endian frame length, then the items of the next frame-length bytes. The
result is the command, the items and the bytes left over after the frame. -/
def parseFrame (bs : List Nat) : Option (Nat × List (Nat × List Nat) × List Nat) :=
  match bs with
  | cmd :: f3 :: f2 :: f1 :: f0 :: rest =>
    if rest.length < beValue [f3, f2, f1, f0] then none
    else
      match parseItems (beValue [f3, f2, f1, f0]) (rest.take (beValue [f3, f2, f1, f0])) with
      | some items => some (cmd, items, rest.drop (beValue [f3, f2, f1, f0]))
      | none => none
  | _ => none

/-! ## Sample inputs -/

/-- A well-formed token: sixty-four digits `0`. -/
def sampleToken : List Nat := List.replicate 64 48

/-- The thirty-two bytes `sampleToken` decodes to. -/
def sampleTokenBytes : List Nat := List.replicate 32 0

/-- A token of the right length that is not hexadecimal: sixty-four letters `z`. -/
def sampleBadToken : List Nat := List.replicate 64 122

/-- A session in state Connected holding both transport handles. -/
def sampleConnected : APNSession :=
  { NewAPNSession "gateway.push.apple.com:2195" "cert.pem" "key.pem" (some 1) with
    conn := some 3
    tlsConn := some 4
    state := StateConncted }

/-- A freshly constructed session with a response channel. -/
def sampleFresh : APNSession :=
  NewAPNSession "gateway.push.apple.com:2195" "cert.pem" "key.pem" (some 1)

/-- An environment in which credential loading, dial and handshake succeed. -/
def sampleEnv : ConnectEnv :=
  { loadX509KeyPair := none
    x509KeyPair := none
    dial := .succeeded
    connHandle := 3
    handshake := .succeeded
    tlsHandle := 4 }

/-! ## Auxiliary facts -/

theorem hexDecodeString_sampleToken : hexDecodeString sampleToken = .ok sampleTokenBytes := by
  rfl

theorem hexDecodeString_length :
    ∀ (tok t : List Nat), hexDecodeString tok = .ok t → tok.length = 2 * t.length
  | [], t, h => by
    simp [hexDecodeString] at h
    subst h
    rfl
  | [p], t, h => by
    simp only [hexDecodeString] at h
    split at h <;> cases h
  | p :: q :: rest, t, h => by
    simp only [hexDecodeString] at h
    split at h
    · cases h
    · split at h
      · cases h
      · cases hr : hexDecodeString rest with
        | error e => rw [hr] at h; cases h
        | ok bs =>
          rw [hr] at h
          cases h
          have := hexDecodeString_length rest bs hr
          simp only [List.length_cons]
          omega

theorem take_truncate (p : List Nat) :
    (if p.length > 2048 then p.take 2048 else p) = p.take 2048 := by
  split
  · rfl
  · exact (List.take_of_length_le (by omega)).symm

theorem take_min_length (p : List Nat) : p.take (min p.length 2048) = p.take 2048 := by
  rcases Nat.le_total p.length 2048 with h | h
  · rw [Nat.min_eq_left h, List.take_of_length_le (Nat.le_refl _), List.take_of_length_le h]
  · rw [Nat.min_eq_right h]

theorem writeUint8_eq_BE (n : Nat) : writeUint8 n = BE 1 n := by
  simp [writeUint8, BE]

theorem writeUint16BE_eq_BE (n : Nat) : writeUint16BE n = BE 2 n := by
  simp only [writeUint16BE, BE, Nat.shiftRight_eq_div_pow, List.nil_append, List.cons_append,
    List.cons.injEq, and_true]

theorem writeUint32BE_eq_BE (n : Nat) : writeUint32BE n = BE 4 n := by
  simp only [writeUint32BE, BE, Nat.shiftRight_eq_div_pow, List.nil_append, List.cons_append,
    List.cons.injEq, and_true]
  omega

theorem BE_length (k n : Nat) : (BE k n).length = k := by
  induction k generalizing n with
  | zero => rfl
  | succ k ih => simp [BE, ih]

theorem BE_two_mod (n : Nat) : BE 2 (n % 2 ^ 16) = BE 2 n := by
  simp only [BE, List.nil_append, List.cons_append, List.cons.injEq, and_true]
  omega

theorem BE_four_mod (n : Nat) : BE 4 (n % 2 ^ 32) = BE 4 n := by
  simp only [BE, List.nil_append, List.cons_append, List.cons.injEq, and_true]
  omega

theorem beValue_BE_two (n : Nat) : beValue (BE 2 n) = n % 2 ^ 16 := by
  simp only [BE, beValue, List.nil_append, List.cons_append, List.foldl]
  omega

theorem beValue_BE_four (n : Nat) : beValue (BE 4 n) = n % 2 ^ 32 := by
  simp only [BE, beValue, List.nil_append, List.cons_append, List.foldl]
  omega

/-- The frame the encoder produces for a well-formed token, with the payload
cut at 2048 bytes. -/
theorem encode_of_token (i : Int) (e pr : Nat) (tok t p : List Nat)
    (htok : hexDecodeString tok = .ok t) (hlen : t.length = 32) :
    EncodePushNotificationToData i e tok p pr =
      .ok ([2] ++ BE 4 (56 + (p.take 2048).length) ++ [1, 0, 32] ++ t ++ [2]
        ++ BE 2 (p.take 2048).length ++ p.take 2048 ++ [3, 0, 4] ++ BE 4 (uint32OfInt i)
        ++ [4, 0, 4] ++ BE 4 e ++ [5, 0, 1] ++ [pr % 256]) := by
  unfold EncodePushNotificationToData
  rw [htok]
  simp only [hlen, ne_eq, not_true_eq_false, if_false, take_truncate]
  rw [if_neg]
  · simp only [writeUint32BE_eq_BE, writeUint16BE_eq_BE, BE_two_mod, BE_four_mod]
    simp [writeUint8, deviceTokenItemid, payloadItemid, notificationIdentifierItemid,
      expirationDateItemid, priorityItemid, BE]
    omega
  · simp [writeUint8, writeUint16BE, writeUint32BE, hlen]
    omega

theorem hexDecodeString_error_class :
    ∀ (tok : List Nat) (err : GoError), hexDecodeString tok = .error err →
      err.isMalformedToken = true
  | [], err, h => by simp [hexDecodeString] at h
  | [p], err, h => by
    simp only [hexDecodeString] at h
    split at h <;> cases h <;> rfl
  | p :: q :: rest, err, h => by
    simp only [hexDecodeString] at h
    split at h
    · cases h; rfl
    · split at h
      · cases h; rfl
      · cases hr : hexDecodeString rest with
        | error e2 =>
          rw [hr] at h
          cases h
          exact hexDecodeString_error_class rest _ hr
        | ok bs => rw [hr] at h; cases h

theorem hexDecodeString_ne_encodeLength (tok : List Nat) :
    hexDecodeString tok ≠ .error .encodeLength := by
  intro h
  have := hexDecodeString_error_class tok _ h
  cases this

theorem parseItems_item (fuel id len : Nat) (body rest : List Nat)
    (hb : body.length = len) (hl : len < 2 ^ 16) :
    parseItems (fuel + 1) ([id] ++ BE 2 len ++ body ++ rest) =
      match parseItems fuel rest with
      | some items => some ((id, body) :: items)
      | none => none := by
  have hv := beValue_BE_two len
  rw [Nat.mod_eq_of_lt hl] at hv
  have h2 : BE 2 len = [len / 256 % 256, len % 256] := by simp [BE]
  rw [h2] at hv ⊢
  have hl2 : [id] ++ [len / 256 % 256, len % 256] ++ body ++ rest =
      id :: (len / 256 % 256) :: (len % 256) :: (body ++ rest) := by simp
  rw [hl2, parseItems, hv, if_neg (by simp [hb]), ← hb, List.drop_left, List.take_left]

theorem parseFrame_of_items (cmd n : Nat) (body : List Nat) (items : List (Nat × List Nat))
    (hn : n < 2 ^ 32) (hlen : body.length = n) (hparse : parseItems n body = some items) :
    parseFrame ([cmd] ++ BE 4 n ++ body) = some (cmd, items, []) := by
  have hv := beValue_BE_four n
  rw [Nat.mod_eq_of_lt hn] at hv
  have h4 : BE 4 n = [n / 256 / 256 / 256 % 256, n / 256 / 256 % 256, n / 256 % 256, n % 256] := by
    simp [BE]
  rw [h4] at hv ⊢
  simp only [List.cons_append, List.nil_append, parseFrame, hv, hlen]
  rw [if_neg (by omega)]
  rw [← hlen, List.take_length, hlen, hparse, ← hlen, List.drop_length]

theorem int32OfUint32_uint32OfInt (i : Int) (hlo : -2 ^ 31 ≤ i) (hhi : i < 2 ^ 31) :
    int32OfUint32 (uint32OfInt i) = i := by
  unfold int32OfUint32 uint32OfInt
  have h0 : (0 : Int) ≤ i % 2 ^ 32 := Int.emod_nonneg _ (by norm_num)
  have hcast : ((i % 2 ^ 32).toNat : Int) = i % 2 ^ 32 := Int.toNat_of_nonneg h0
  split
  · rename_i hlt
    have : ((i % 2 ^ 32).toNat : Int) < 2 ^ 31 := by exact_mod_cast hlt
    omega
  · rename_i hge
    have : ¬ ((i % 2 ^ 32).toNat : Int) < 2 ^ 31 := by
      intro hc; apply hge; exact_mod_cast hc
    omega

theorem uint32OfInt_lt (i : Int) : uint32OfInt i < 2 ^ 32 := by
  unfold uint32OfInt
  have h0 : (0 : Int) ≤ i % 2 ^ 32 := Int.emod_nonneg _ (by norm_num)
  have h1 : i % 2 ^ 32 < 2 ^ 32 := Int.emod_lt_of_pos _ (by norm_num)
  omega

theorem hexDecodeString_sampleBadToken :
    hexDecodeString sampleBadToken = .error (.hexInvalidByte 122) := by
  rfl

theorem sampleBadToken_malformed :
    ¬ ∃ t, hexDecodeString sampleBadToken = .ok t ∧ t.length = 32 := by
  rintro ⟨t, h, _⟩
  rw [hexDecodeString_sampleBadToken] at h
  cases h

theorem Close_conn (a : APNSession) : a.Close.1.conn = none := by
  unfold APNSession.Close
  cases hc : a.conn <;> cases ht : a.tlsConn <;> simp [hc, ht]

theorem Close_tlsConn (a : APNSession) : a.Close.1.tlsConn = none := by
  unfold APNSession.Close
  cases hc : a.conn <;> cases ht : a.tlsConn <;> simp [hc, ht]

theorem Close_state (a : APNSession) : a.Close.1.state = a.state := by
  unfold APNSession.Close
  cases hc : a.conn <;> cases ht : a.tlsConn <;> simp [hc, ht]

/-! ## The frame codec -/

/-- C1: for a token that hex-decodes to 32 bytes `t`, the encoder returns
exactly command byte 2, the big-endian 32-bit frame length `56 + len p'`, then
the items 1 (token), 2 (payload `p'`, the first `min (len p) 2048` bytes of
`p`), 3 (identifier modulo `2 ^ 32`), 4 (expiry) and 5 (priority), each with
its 2-byte big-endian length; the frame-length field equals the number of
bytes that follow it. -/
theorem encode_frame_layout (i : Int) (e pr : Nat) (tok t p : List Nat)
    (htok : hexDecodeString tok = .ok t) (hlen : t.length = 32) (hpr : pr < 256) :
    ∃ out, EncodePushNotificationToData i e tok p pr = .ok out ∧
      out = [2] ++ BE 4 (56 + (p.take (min p.length 2048)).length) ++ [1, 0, 32] ++ t
        ++ [2] ++ BE 2 (p.take (min p.length 2048)).length ++ p.take (min p.length 2048)
        ++ [3, 0, 4] ++ BE 4 (i % 2 ^ 32).toNat ++ [4, 0, 4] ++ BE 4 e ++ [5, 0, 1] ++ [pr] ∧
      ((out.drop 1).take 4).length = 4 ∧
      beValue ((out.drop 1).take 4) = (out.drop 5).length := by
  have hcut : (p.take 2048).length ≤ 2048 := by
    rw [List.length_take]; omega
  refine ⟨_, encode_of_token i e pr tok t p htok hlen, ?_, ?_, ?_⟩
  · rw [take_min_length, Nat.mod_eq_of_lt hpr]
    rfl
  · simp [BE]
  · have h4 : ∃ a b c d, BE 4 (56 + (p.take 2048).length) = [a, b, c, d] := by
      simp [BE]
    obtain ⟨a, b, c, d, h4⟩ := h4
    have hv := beValue_BE_four (56 + (p.take 2048).length)
    rw [h4] at hv
    simp only [h4, List.append_assoc] at *
    simp only [List.cons_append, List.nil_append, List.drop_succ_cons, List.drop_zero,
      List.take_succ_cons, List.take_zero, hv]
    simp [hlen, BE_length]
    omega

/-- Witness for `encode_frame_layout`: the sample token, payload `[1, 2, 3]`,
identifier `-2`, expiry `9` and priority `10`. -/
theorem encode_frame_layout_witness :
    hexDecodeString sampleToken = .ok sampleTokenBytes ∧ sampleTokenBytes.length = 32 ∧
    ∃ out, EncodePushNotificationToData (-2) 9 sampleToken [1, 2, 3] 10 = .ok out ∧
      out = [2] ++ BE 4 (56 + (([1, 2, 3] : List Nat).take (min ([1, 2, 3] : List Nat).length 2048)).length)
        ++ [1, 0, 32] ++ sampleTokenBytes
        ++ [2] ++ BE 2 (([1, 2, 3] : List Nat).take (min ([1, 2, 3] : List Nat).length 2048)).length
        ++ ([1, 2, 3] : List Nat).take (min ([1, 2, 3] : List Nat).length 2048)
        ++ [3, 0, 4] ++ BE 4 ((-2 : Int) % 2 ^ 32).toNat ++ [4, 0, 4] ++ BE 4 9 ++ [5, 0, 1] ++ [10] ∧
      ((out.drop 1).take 4).length = 4 ∧
      beValue ((out.drop 1).take 4) = (out.drop 5).length :=
  ⟨hexDecodeString_sampleToken, rfl,
    encode_frame_layout (-2) 9 10 sampleToken sampleTokenBytes [1, 2, 3]
      hexDecodeString_sampleToken rfl (by decide)⟩

/-- C2: the length-mismatch error is returned for no input, and for a token
that hex-decodes to 32 bytes the encoder succeeds with exactly
`61 + min (len payload) 2048` bytes. -/
theorem encode_succeeds_with_total_length (i : Int) (e pr : Nat) (tok p : List Nat) :
    EncodePushNotificationToData i e tok p pr ≠ .error .encodeLength ∧
    ∀ t, hexDecodeString tok = .ok t → t.length = 32 →
      ∃ out, EncodePushNotificationToData i e tok p pr = .ok out ∧
        out.length = 61 + min p.length 2048 := by
  constructor
  · cases htok : hexDecodeString tok with
    | error err =>
      have hne : err ≠ .encodeLength := by
        intro hc
        exact hexDecodeString_ne_encodeLength tok (hc ▸ htok)
      unfold EncodePushNotificationToData
      rw [htok]
      intro hc
      cases hc
      exact hne rfl
    | ok t =>
      by_cases hlen : t.length = 32
      · rw [encode_of_token i e pr tok t p htok hlen]
        intro hc
        cases hc
      · unfold EncodePushNotificationToData
        rw [htok]
        simp only [ne_eq, hlen, not_false_eq_true, if_true]
        intro hc
        cases hc
  · intro t htok hlen
    refine ⟨_, encode_of_token i e pr tok t p htok hlen, ?_⟩
    simp [hlen, BE_length, List.length_take]
    omega

/-- Witness for `encode_succeeds_with_total_length`: the sample token and a
payload of 3000 bytes give a frame of `61 + 2048` bytes. -/
theorem encode_succeeds_with_total_length_witness :
    hexDecodeString sampleToken = .ok sampleTokenBytes ∧ sampleTokenBytes.length = 32 ∧
    ∃ out, EncodePushNotificationToData 7 0 sampleToken (List.replicate 3000 1) 10 = .ok out ∧
      out.length = 61 + min (List.replicate 3000 1).length 2048 :=
  ⟨hexDecodeString_sampleToken, rfl,
    (encode_succeeds_with_total_length 7 0 10 sampleToken (List.replicate 3000 1)).2
      sampleTokenBytes hexDecodeString_sampleToken rfl⟩

/-- C3: for a token that is not valid hexadecimal or does not decode to
exactly 32 bytes, the encoder returns no frame and fails with a
malformed-token error: the error of the hexadecimal decoder when the token
does not decode, the wrong-length error when it decodes to another length;
it never fails with the length-mismatch error. -/
theorem encode_rejects_malformed_token (i : Int) (e pr : Nat) (tok p : List Nat)
    (hbad : ¬ ∃ t, hexDecodeString tok = .ok t ∧ t.length = 32) :
    (∃ err, EncodePushNotificationToData i e tok p pr = .error err ∧
      err.isMalformedToken = true ∧ err ≠ .encodeLength) ∧
    (∀ out, EncodePushNotificationToData i e tok p pr ≠ .ok out) ∧
    (∀ err, hexDecodeString tok = .error err →
      EncodePushNotificationToData i e tok p pr = .error err) ∧
    (∀ t, hexDecodeString tok = .ok t →
      EncodePushNotificationToData i e tok p pr = .error .tokenLength) := by
  cases htok : hexDecodeString tok with
  | error err =>
    have hcls := hexDecodeString_error_class tok err htok
    have henc : EncodePushNotificationToData i e tok p pr = .error err := by
      unfold EncodePushNotificationToData
      rw [htok]
    refine ⟨⟨err, henc, hcls, ?_⟩, ?_, ?_, ?_⟩
    · intro hc; rw [hc] at hcls; cases hcls
    · intro out hc; rw [henc] at hc; cases hc
    · intro err2 h2; cases h2; exact henc
    · intro t h2; cases h2
  | ok t =>
    have hlen : t.length ≠ 32 := fun hl => hbad ⟨t, htok, hl⟩
    have henc : EncodePushNotificationToData i e tok p pr = .error .tokenLength := by
      unfold EncodePushNotificationToData
      rw [htok]
      simp only [ne_eq, hlen, not_false_eq_true, if_true]
    refine ⟨⟨_, henc, rfl, ?_⟩, ?_, ?_, ?_⟩
    · intro hc; cases hc
    · intro out hc; rw [henc] at hc; cases hc
    · intro err2 h2; cases h2
    · intro t2 _; exact henc

/-- Witness for `encode_rejects_malformed_token`: the two-character token `zz`. -/
theorem encode_rejects_malformed_token_witness :
    (¬ ∃ t, hexDecodeString [122, 122] = .ok t ∧ t.length = 32) ∧
    ∃ err, EncodePushNotificationToData 7 0 [122, 122] [1, 2, 3] 10 = .error err ∧
      err.isMalformedToken = true ∧ err ≠ .encodeLength :=
  have hbad : ¬ ∃ t, hexDecodeString [122, 122] = .ok t ∧ t.length = 32 := by
    rintro ⟨t, h, _⟩
    simp [hexDecodeString, fromHexChar] at h
  ⟨hbad, (encode_rejects_malformed_token 7 0 10 [122, 122] [1, 2, 3] hbad).1⟩

/-- C4: for a well-formed token the payload size never makes the encoder fail.
Encoding `p` equals encoding its first 2048 bytes; when `len p > 2048` the
payload item (id at offset 40) carries length 2048 and the first 2048 bytes of
`p`, and when `len p ≤ 2048` it carries length `len p` and `p` unchanged. -/
theorem encode_truncates_payload (i : Int) (e pr : Nat) (tok t p : List Nat)
    (htok : hexDecodeString tok = .ok t) (hlen : t.length = 32) :
    EncodePushNotificationToData i e tok p pr =
      EncodePushNotificationToData i e tok (p.take 2048) pr ∧
    ∃ out, EncodePushNotificationToData i e tok p pr = .ok out ∧
      (out.drop 40).take 1 = [2] ∧
      (2048 < p.length →
        beValue ((out.drop 41).take 2) = 2048 ∧ (out.drop 43).take 2048 = p.take 2048) ∧
      (p.length ≤ 2048 →
        beValue ((out.drop 41).take 2) = p.length ∧ (out.drop 43).take p.length = p) := by
  have hcut : (p.take 2048).length ≤ 2048 := by
    rw [List.length_take]; omega
  have hshape : ∀ (q : List Nat) (rest : List Nat), q.length ≤ 2048 →
      ∀ out, out = [2] ++ BE 4 (56 + q.length) ++ [1, 0, 32] ++ t ++ [2] ++ BE 2 q.length
        ++ q ++ rest →
      (out.drop 40).take 1 = [2] ∧ beValue ((out.drop 41).take 2) = q.length ∧
        (out.drop 43).take q.length = q := by
    intro q rest hq out hout
    have hpre : ([2] ++ BE 4 (56 + q.length) ++ [1, 0, 32] ++ t).length = 40 := by
      simp [BE_length, hlen]
    have hv := beValue_BE_two q.length
    rw [Nat.mod_eq_of_lt (by omega : q.length < 2 ^ 16)] at hv
    have h2 : BE 2 q.length = [q.length / 256 % 256, q.length % 256] := by simp [BE]
    rw [h2] at hv
    have e1 : out = ([2] ++ BE 4 (56 + q.length) ++ [1, 0, 32] ++ t)
        ++ (2 :: q.length / 256 % 256 :: q.length % 256 :: (q ++ rest)) := by
      rw [hout, h2]; simp
    have d40 : out.drop 40 = 2 :: q.length / 256 % 256 :: q.length % 256 :: (q ++ rest) := by
      rw [e1, ← hpre, List.drop_left]
    have d41 : out.drop 41 = q.length / 256 % 256 :: q.length % 256 :: (q ++ rest) := by
      have : out.drop 41 = (out.drop 40).drop 1 := by rw [List.drop_drop]
      rw [this, d40]; rfl
    have d43 : out.drop 43 = q ++ rest := by
      have : out.drop 43 = (out.drop 40).drop 3 := by rw [List.drop_drop]
      rw [this, d40]; rfl
    refine ⟨by rw [d40]; rfl, by rw [d41]; exact hv, by rw [d43, List.take_left]⟩
  have henc := encode_of_token i e pr tok t p htok hlen
  constructor
  · rw [henc, encode_of_token i e pr tok t (p.take 2048) htok hlen, List.take_take,
      Nat.min_self]
  · obtain ⟨out, hout⟩ : ∃ out, out = [2] ++ BE 4 (56 + (p.take 2048).length) ++ [1, 0, 32]
        ++ t ++ [2] ++ BE 2 (p.take 2048).length ++ p.take 2048 ++ [3, 0, 4]
        ++ BE 4 (uint32OfInt i) ++ [4, 0, 4] ++ BE 4 e ++ [5, 0, 1] ++ [pr % 256] := ⟨_, rfl⟩
    rw [← hout] at henc
    obtain ⟨h1, h2, h3⟩ := hshape (p.take 2048)
      ([3, 0, 4] ++ BE 4 (uint32OfInt i) ++ [4, 0, 4] ++ BE 4 e ++ [5, 0, 1] ++ [pr % 256])
      hcut out (by rw [hout]; simp only [List.append_assoc])
    clear hout hshape
    refine ⟨out, henc, h1, ?_, ?_⟩
    · intro hgt
      have hl : (p.take 2048).length = 2048 := by rw [List.length_take]; omega
      exact ⟨h2.trans hl, (congrArg (fun n => (out.drop 43).take n) hl).symm.trans h3⟩
    · intro hle
      have hl : p.take 2048 = p := List.take_of_length_le hle
      exact ⟨h2.trans (congrArg List.length hl),
        ((congrArg (fun q => (out.drop 43).take q.length) hl).symm.trans h3).trans hl⟩

/-- Witness for `encode_truncates_payload`: the sample token and a payload of
3000 bytes. -/
theorem encode_truncates_payload_witness :
    hexDecodeString sampleToken = .ok sampleTokenBytes ∧ sampleTokenBytes.length = 32 ∧
    EncodePushNotificationToData 7 0 sampleToken (List.replicate 3000 1) 10 =
      EncodePushNotificationToData 7 0 sampleToken ((List.replicate 3000 1).take 2048) 10 :=
  ⟨hexDecodeString_sampleToken, rfl,
    (encode_truncates_payload 7 0 10 sampleToken sampleTokenBytes (List.replicate 3000 1)
      hexDecodeString_sampleToken rfl).1⟩

/-- C5: round trip. For a well-formed input, reading the encoder's output by
its own framing uses up the whole output and gives exactly the five items
1, 2, 3, 4, 5 in this order, whose bodies are the token bytes, the first
`min (len p) 2048` bytes of the payload, the identifier (as a big-endian 32-bit
two's-complement value), the expiry and the priority. -/
theorem encode_parse_round_trip (i : Int) (e pr : Nat) (tok t p : List Nat)
    (htok : hexDecodeString tok = .ok t) (hlen : t.length = 32)
    (hlo : -2 ^ 31 ≤ i) (hhi : i < 2 ^ 31) (he : e < 2 ^ 32) (hpr : pr < 256) :
    ∃ out b3 b4, EncodePushNotificationToData i e tok p pr = .ok out ∧
      parseFrame out =
        some (2, [(1, t), (2, p.take (min p.length 2048)), (3, b3), (4, b4), (5, [pr])], []) ∧
      b3.length = 4 ∧ int32OfUint32 (beValue b3) = i ∧
      b4.length = 4 ∧ beValue b4 = e := by
  have hcut : (p.take 2048).length ≤ 2048 := by
    rw [List.length_take]; omega
  refine ⟨_, BE 4 (uint32OfInt i), BE 4 e, encode_of_token i e pr tok t p htok hlen,
    ?_, BE_length _ _, ?_, BE_length _ _, ?_⟩
  · rw [take_min_length, Nat.mod_eq_of_lt hpr]
    have hbody : ([1, 0, 32] ++ t ++ [2] ++ BE 2 (p.take 2048).length ++ p.take 2048
        ++ [3, 0, 4] ++ BE 4 (uint32OfInt i) ++ [4, 0, 4] ++ BE 4 e ++ [5, 0, 1] ++ [pr]) =
        [1] ++ BE 2 32 ++ t ++ ([2] ++ BE 2 (p.take 2048).length ++ p.take 2048
        ++ ([3] ++ BE 2 4 ++ BE 4 (uint32OfInt i) ++ ([4] ++ BE 2 4 ++ BE 4 e
        ++ ([5] ++ BE 2 1 ++ [pr] ++ [])))) := by
      simp [BE]
    have hitems : parseItems (56 + (p.take 2048).length)
        ([1, 0, 32] ++ t ++ [2] ++ BE 2 (p.take 2048).length ++ p.take 2048
        ++ [3, 0, 4] ++ BE 4 (uint32OfInt i) ++ [4, 0, 4] ++ BE 4 e ++ [5, 0, 1] ++ [pr]) =
        some [(1, t), (2, p.take 2048), (3, BE 4 (uint32OfInt i)), (4, BE 4 e), (5, [pr])] := by
      rw [hbody]
      have hf : 56 + (p.take 2048).length = (51 + (p.take 2048).length) + 1 + 1 + 1 + 1 + 1 := by
        omega
      rw [hf, parseItems_item _ 1 32 t _ hlen (by norm_num),
        parseItems_item _ 2 _ (p.take 2048) _ rfl (by omega),
        parseItems_item _ 3 4 _ _ (BE_length _ _) (by norm_num),
        parseItems_item _ 4 4 _ _ (BE_length _ _) (by norm_num),
        parseItems_item _ 5 1 [pr] _ rfl (by norm_num)]
      simp [parseItems]
    have hframe := parseFrame_of_items 2 (56 + (p.take 2048).length) _ _ (by omega)
      (by simp [hlen, BE_length]; omega) hitems
    simpa only [List.append_assoc] using hframe
  · rw [beValue_BE_four, Nat.mod_eq_of_lt (uint32OfInt_lt i)]
    exact int32OfUint32_uint32OfInt i hlo hhi
  · rw [beValue_BE_four, Nat.mod_eq_of_lt he]

/-- Witness for `encode_parse_round_trip`: the sample token, payload
`[1, 2, 3]`, identifier `-2`, expiry `9` and priority `10`. -/
theorem encode_parse_round_trip_witness :
    hexDecodeString sampleToken = .ok sampleTokenBytes ∧ sampleTokenBytes.length = 32 ∧
    ∃ out b3 b4, EncodePushNotificationToData (-2) 9 sampleToken [1, 2, 3] 10 = .ok out ∧
      parseFrame out =
        some (2, [(1, sampleTokenBytes),
          (2, ([1, 2, 3] : List Nat).take (min ([1, 2, 3] : List Nat).length 2048)),
          (3, b3), (4, b4), (5, [10])], []) ∧
      b3.length = 4 ∧ int32OfUint32 (beValue b3) = -2 ∧
      b4.length = 4 ∧ beValue b4 = 9 :=
  ⟨hexDecodeString_sampleToken, rfl,
    encode_parse_round_trip (-2) 9 10 sampleToken sampleTokenBytes [1, 2, 3]
      hexDecodeString_sampleToken rfl (by decide) (by decide) (by decide) (by decide)⟩

/-! ## The error-response decoder -/

/-- C6: `NewFailInfoFromByte` returns an event exactly when the buffer has
length 6 and first byte 8; for every other buffer, the empty one included, it
returns no event. -/
theorem newFailInfo_some_iff (data : List Nat) :
    (∃ info, NewFailInfoFromByte data = some info) ↔ (data.length = 6 ∧ data.head? = some 8) := by
  unfold NewFailInfoFromByte
  constructor
  · rintro ⟨info, h⟩
    split at h
    · cases h
    · rename_i hc
      have hc2 : data.length = 6 ∧ data.getD 0 0 = 8 := by
        constructor
        · by_contra hx; exact hc (Or.inl hx)
        · by_contra hx; exact hc (Or.inr hx)
      refine ⟨hc2.1, ?_⟩
      cases data with
      | nil => simp at hc2
      | cons a l => simpa using hc2.2
  · rintro ⟨h6, h8⟩
    cases data with
    | nil => simp at h6
    | cons a l =>
      have ha : a = 8 := by simpa using h8
      subst ha
      rw [if_neg]
      · exact ⟨_, rfl⟩
      · simp [h6]

/-- C7 (failing input): the error frame `[8, 5, 0, 0, 0, 7]` carries the four
identifier bytes the encoder writes in item 3 for identifier 7. Decoding it
gives status code 5 and identifier `117440512 = 7 * 2 ^ 24`, not 7: the decoder
reads the field in little-endian order, the encoder writes it big-endian. -/
theorem newFailInfo_identifier_not_correlated :
    writeUint32BE (uint32OfInt 7) = [0, 0, 0, 7] ∧
    NewFailInfoFromByte ([8, 5] ++ writeUint32BE (uint32OfInt 7)) =
      some { Pid := 117440512, Code := 5 } ∧
    (117440512 : Nat) ≠ uint32OfInt 7 := by
  decide

/-- C8 (counterexample): status byte 9 is not a named code, and the table has
no label for it; the index expression gives the empty string, not `UNKNOWN`. -/
theorem unknown_label_counterexample :
    ¬ ∀ (s : Nat) (rest : List Nat), s < 256 → s ∉ [0, 1, 2, 3, 4, 5, 6, 7, 8, 10] →
      rest.length = 4 →
      (∃ info, NewFailInfoFromByte (8 :: s :: rest) = some info ∧ info.Code = s) ∧
      mapLookup ApplePushResponses s = some "UNKNOWN" ∧
      mapIndex ApplePushResponses s = "UNKNOWN" := by
  intro h
  have h9 := (h 9 [0, 0, 0, 0] (by decide) (by decide) rfl).2.1
  revert h9
  decide

/-- C8 (amended): for every status byte `s` that is not one of the named codes
0 to 8 and 10, decoding a 6-byte frame `[8, s, ...]` yields an event with
`Code = s`; the table gives the label `UNKNOWN` when `s = 255`, and for every
other such `s` it has no entry, so the index expression yields the empty
string. -/
theorem unnamed_code_decodes_raw (s : Nat) (rest : List Nat) (hs : s < 256)
    (hnamed : s ∉ [0, 1, 2, 3, 4, 5, 6, 7, 8, 10]) (hrest : rest.length = 4) :
    (∃ info, NewFailInfoFromByte (8 :: s :: rest) = some info ∧ info.Code = s) ∧
    (s = 255 → mapLookup ApplePushResponses s = some "UNKNOWN" ∧
      mapIndex ApplePushResponses s = "UNKNOWN") ∧
    (s ≠ 255 → mapLookup ApplePushResponses s = none ∧
      mapIndex ApplePushResponses s = "") := by
  refine ⟨?_, ?_, ?_⟩
  · unfold NewFailInfoFromByte
    rw [if_neg (by simp [hrest])]
    exact ⟨_, rfl, by simp [Nat.mod_eq_of_lt hs]⟩
  · intro h255
    subst h255
    decide
  · intro h255
    simp only [List.mem_cons, List.mem_singleton, List.not_mem_nil, or_false, not_or] at hnamed
    obtain ⟨h0, h1, h2, h3, h4, h5, h6, h7, h8, h10⟩ := hnamed
    have hl : mapLookup ApplePushResponses s = none := by
      have hne : ∀ k : Nat, ¬ s = k → (s == k) = false := fun k h => by simpa using h
      simp only [mapLookup, ApplePushResponses, List.lookup, hne 0 h0, hne 1 h1, hne 2 h2,
        hne 3 h3, hne 4 h4, hne 5 h5, hne 6 h6, hne 7 h7, hne 8 h8, hne 10 h10, hne 255 h255]
    exact ⟨hl, by simp [mapIndex, hl]⟩

/-- Witness for `unnamed_code_decodes_raw`: status byte 9. -/
theorem unnamed_code_decodes_raw_witness :
    (9 < 256 ∧ 9 ∉ [0, 1, 2, 3, 4, 5, 6, 7, 8, 10] ∧ ([0, 0, 0, 7] : List Nat).length = 4) ∧
    (∃ info, NewFailInfoFromByte (8 :: 9 :: [0, 0, 0, 7]) = some info ∧ info.Code = 9) ∧
    (9 = 255 → mapLookup ApplePushResponses 9 = some "UNKNOWN" ∧
      mapIndex ApplePushResponses 9 = "UNKNOWN") ∧
    (9 ≠ 255 → mapLookup ApplePushResponses 9 = none ∧
      mapIndex ApplePushResponses 9 = "") :=
  ⟨⟨by decide, by decide, rfl⟩,
    unnamed_code_decodes_raw 9 [0, 0, 0, 7] (by decide) (by decide) rfl⟩

/-! ## The session -/

/-- C9 (failing input): on a session in state Connected that holds both
handles, `Close` releases both handles but leaves the state Connected, not
Disconnected; the same holds when the receive loop calls `Close` on a read
error and on a decoded shutdown code. A `Send` after the `Close` passes the
state check and calls `Write` through the released (`nil`) handle. -/
theorem close_leaves_state_connected :
    sampleConnected.State = StateConncted ∧
    (sampleConnected.Close.1.conn = none ∧ sampleConnected.Close.1.tlsConn = none ∧
      sampleConnected.Close.1.State = StateConncted) ∧
    (sampleConnected.Close.1.Send (fun (_ : Unit) => .ok [123, 125]) (fun _ => none) 7
      (some ()) sampleToken 0).1 = .nilDereference ∧
    ((sampleConnected.RecvRespnose [⟨[], some (.collaborator "EOF")⟩]).1 = .returned ∧
      (sampleConnected.RecvRespnose [⟨[], some (.collaborator "EOF")⟩]).2.1.tlsConn = none ∧
      (sampleConnected.RecvRespnose [⟨[], some (.collaborator "EOF")⟩]).2.1.State =
        StateConncted) ∧
    ((sampleConnected.RecvRespnose [⟨[8, 10, 0, 0, 0, 0], none⟩]).1 = .returned ∧
      (sampleConnected.RecvRespnose [⟨[8, 10, 0, 0, 0, 0], none⟩]).2.1.tlsConn = none ∧
      (sampleConnected.RecvRespnose [⟨[8, 10, 0, 0, 0, 0], none⟩]).2.1.State =
        StateConncted) ∧
    StateConncted ≠ StateDisconnect := by
  decide

/-- C10 (counterexample): a payload is given and the 64-character token `zz...z`
does not hex-decode, yet `Send` on a freshly constructed session returns
`Not Connect`, and on a Connected session the decoder's error; neither is
`Invalid args`. -/
theorem send_invalid_args_counterexample :
    (¬ ∃ t, hexDecodeString sampleBadToken = .ok t ∧ t.length = 32) ∧
    ((NewAPNSession "gateway.push.apple.com:2195" "cert.pem" "key.pem" (some 1)).Send
      (fun (_ : Unit) => .ok [123, 125]) (fun _ => none) 7 (some ()) sampleBadToken 0).1 =
      .value (some .notConnect) ∧
    (sampleConnected.Send (fun (_ : Unit) => .ok [123, 125]) (fun _ => none) 7 (some ())
      sampleBadToken 0).1 = .value (some (.hexInvalidByte 122)) ∧
    GoError.notConnect ≠ GoError.invalidArgs ∧
    GoError.hexInvalidByte 122 ≠ GoError.invalidArgs :=
  ⟨sampleBadToken_malformed, by rfl, by rfl, by decide, by decide⟩

/-- C10 (amended): `Send` with an absent payload or a token whose length is not
64 returns `Invalid args` in every connection state. For every call with an
absent payload or a token that does not hex-decode to exactly 32 bytes, `Send`
returns an error, performs no write and leaves the session unchanged; for a
64-character token that does not decode the error is `Not Connect` when the
state is not Connected and otherwise the serialisation error of the payload
or, when the payload serialises, the error of the hexadecimal decoder. -/
theorem send_rejects_invalid_arguments {P : Type}
    (toJsonData : P → Except GoError (List Nat)) (tlsWrite : List Nat → Option GoError)
    (a : APNSession) (i : Int) (payload : Option P) (token : List Nat) (e : Nat)
    (hbad : payload = none ∨ ¬ ∃ t, hexDecodeString token = .ok t ∧ t.length = 32) :
    (∃ err, (a.Send toJsonData tlsWrite i payload token e).1 = .value (some err)) ∧
    (a.Send toJsonData tlsWrite i payload token e).2.1 = a ∧
    (a.Send toJsonData tlsWrite i payload token e).2.2 = [] ∧
    (payload = none ∨ token.length ≠ 64 →
      (a.Send toJsonData tlsWrite i payload token e).1 = .value (some .invalidArgs)) ∧
    (payload ≠ none → token.length = 64 → a.state ≠ StateConncted →
      (a.Send toJsonData tlsWrite i payload token e).1 = .value (some .notConnect)) ∧
    (∀ p, payload = some p → token.length = 64 → a.state = StateConncted →
      (∀ err, toJsonData p = .error err →
        (a.Send toJsonData tlsWrite i payload token e).1 = .value (some err)) ∧
      (∀ j, toJsonData p = .ok j → ∃ err, hexDecodeString token = .error err ∧
        (a.Send toJsonData tlsWrite i payload token e).1 = .value (some err))) := by
  cases payload with
  | none =>
    refine ⟨⟨_, rfl⟩, rfl, rfl, fun _ => rfl, fun h => absurd rfl h, ?_⟩
    intro p hp
    cases hp
  | some p =>
    have hmal : ¬ ∃ t, hexDecodeString token = .ok t ∧ t.length = 32 := by
      rcases hbad with h | h
      · cases h
      · exact h
    by_cases h64 : token.length = 64
    · have hdec : ∃ err, hexDecodeString token = .error err := by
        cases htok : hexDecodeString token with
        | error err => exact ⟨err, rfl⟩
        | ok t =>
          exfalso
          apply hmal
          refine ⟨t, htok, ?_⟩
          have := hexDecodeString_length token t htok
          omega
      obtain ⟨herr, hdec⟩ := hdec
      have henc : ∀ j, EncodePushNotificationToData i e token j 10 = .error herr := by
        intro j
        unfold EncodePushNotificationToData
        rw [hdec]
      by_cases hst : a.state = StateConncted
      · cases hj : toJsonData p with
        | error jerr =>
          have hs : a.Send toJsonData tlsWrite i (some p) token e =
              (.value (some jerr), a, []) := by
            simp [APNSession.Send, h64, hst, hj]
          rw [hs]
          refine ⟨⟨_, rfl⟩, rfl, rfl, ?_, ?_, ?_⟩
          · rintro (h | h)
            · cases h
            · exact absurd h64 h
          · intro _ _ h; exact absurd hst h
          · intro p2 hp2 _ _
            cases hp2
            refine ⟨?_, ?_⟩
            · intro err2 h2; rw [hj] at h2; cases h2; rfl
            · intro j h2; rw [hj] at h2; cases h2
        | ok j =>
          have hs : a.Send toJsonData tlsWrite i (some p) token e =
              (.value (some herr), a, []) := by
            simp [APNSession.Send, h64, hst, hj, henc j]
          rw [hs]
          refine ⟨⟨_, rfl⟩, rfl, rfl, ?_, ?_, ?_⟩
          · rintro (h | h)
            · cases h
            · exact absurd h64 h
          · intro _ _ h; exact absurd hst h
          · intro p2 hp2 _ _
            cases hp2
            refine ⟨?_, ?_⟩
            · intro err2 h2; rw [hj] at h2; cases h2
            · intro j2 _; exact ⟨herr, hdec, rfl⟩
      · have hs : a.Send toJsonData tlsWrite i (some p) token e =
            (.value (some .notConnect), a, []) := by
          simp [APNSession.Send, h64, hst]
        rw [hs]
        refine ⟨⟨_, rfl⟩, rfl, rfl, ?_, ?_, ?_⟩
        · rintro (h | h)
          · cases h
          · exact absurd h64 h
        · intro _ _ _; rfl
        · intro p2 _ _ h; exact absurd h hst
    · have hs : a.Send toJsonData tlsWrite i (some p) token e =
          (.value (some .invalidArgs), a, []) := by
        simp [APNSession.Send, h64]
      rw [hs]
      refine ⟨⟨_, rfl⟩, rfl, rfl, fun _ => rfl, ?_, ?_⟩
      · intro _ h; exact absurd h h64
      · intro p2 _ h; exact absurd h h64

/-- Witness for `send_rejects_invalid_arguments`: the 64-character token
`zz...z` on the Connected sample session. -/
theorem send_rejects_invalid_arguments_witness :
    (¬ ∃ t, hexDecodeString sampleBadToken = .ok t ∧ t.length = 32) ∧
    (∃ err, (sampleConnected.Send (fun (_ : Unit) => .ok [123, 125]) (fun _ => none) 7
      (some ()) sampleBadToken 0).1 = .value (some err)) ∧
    (sampleConnected.Send (fun (_ : Unit) => .ok [123, 125]) (fun _ => none) 7
      (some ()) sampleBadToken 0).2.1 = sampleConnected ∧
    (sampleConnected.Send (fun (_ : Unit) => .ok [123, 125]) (fun _ => none) 7
      (some ()) sampleBadToken 0).2.2 = [] :=
  have h := send_rejects_invalid_arguments (fun (_ : Unit) => .ok [123, 125]) (fun _ => none)
    sampleConnected 7 (some ()) sampleBadToken 0 (Or.inr sampleBadToken_malformed)
  ⟨sampleBadToken_malformed, h.1, h.2.1, h.2.2.1⟩


/-! ## Auxiliary facts about the decoder and the session -/

theorem readUint32LE_bytes (b0 b1 b2 b3 : Nat) (h0 : b0 < 256) (h1 : b1 < 256)
    (h2 : b2 < 256) :
    readUint32LE [b0, b1, b2, b3] = b0 + 2 ^ 8 * b1 + 2 ^ 16 * b2 + 2 ^ 24 * b3 := by
  simp only [readUint32LE, Nat.shiftLeft_eq]
  have e1 : b0 ||| b1 * 2 ^ 8 = 2 ^ 8 * b1 + b0 := by
    rw [Nat.lor_comm, Nat.mul_comm, ← Nat.mul_add_lt_is_or (by omega)]
  have e2 : (2 ^ 8 * b1 + b0) ||| b2 * 2 ^ 16 = 2 ^ 16 * b2 + (2 ^ 8 * b1 + b0) := by
    rw [Nat.lor_comm, Nat.mul_comm, ← Nat.mul_add_lt_is_or (by omega)]
  have e3 : (2 ^ 16 * b2 + (2 ^ 8 * b1 + b0)) ||| b3 * 2 ^ 24 =
      2 ^ 24 * b3 + (2 ^ 16 * b2 + (2 ^ 8 * b1 + b0)) := by
    rw [Nat.lor_comm, Nat.mul_comm, ← Nat.mul_add_lt_is_or (by omega)]
  rw [e1, e2, e3]
  omega

theorem newFailInfo_of_frame (s b2 b3 b4 b5 : Nat) :
    NewFailInfoFromByte [8, s, b2, b3, b4, b5] =
      some { Pid := readUint32LE [b2, b3, b4, b5], Code := s % 256 } := by
  rfl

theorem list_length_six (b : List Nat) (h : b.length = 6) :
    ∃ b0 b1 b2 b3 b4 b5, b = [b0, b1, b2, b3, b4, b5] := by
  match b, h with
  | [b0, b1, b2, b3, b4, b5], _ => exact ⟨b0, b1, b2, b3, b4, b5, rfl⟩

theorem Close_Close (a : APNSession) : a.Close.1.Close = (a.Close.1, []) := by
  have hc := Close_conn a
  have ht := Close_tlsConn a
  generalize a.Close.1 = c at hc ht
  unfold APNSession.Close
  simp [hc, ht]

theorem connectBody_outcome (env : ConnectEnv) (a : APNSession) :
    (((if a.CertificateBase64.length = 0 ∨ a.KeyBase64.length = 0 then env.loadX509KeyPair
        else env.x509KeyPair) = none ∧
      (splitColon a.Gateway.toList).length = 2 ∧ env.dial = .succeeded ∧
      env.handshake = .succeeded) →
      (a.connectBody env).err = none ∧ (a.connectBody env).session.state = StateConncted) ∧
    (¬ ((if a.CertificateBase64.length = 0 ∨ a.KeyBase64.length = 0 then env.loadX509KeyPair
        else env.x509KeyPair) = none ∧
      (splitColon a.Gateway.toList).length = 2 ∧ env.dial = .succeeded ∧
      env.handshake = .succeeded) →
      (a.connectBody env).err ≠ none ∧ (a.connectBody env).session.state = StateDisconnect) := by
  unfold APNSession.connectBody
  generalize (if a.CertificateBase64.length = 0 ∨ a.KeyBase64.length = 0 then
    env.loadX509KeyPair else env.x509KeyPair) = certErr
  cases certErr with
  | some err => simp [APNSession.connectDeferred]
  | none =>
    by_cases hparts : (splitColon a.Gateway.data).length = 2
    · cases hd : env.dial with
      | failed err => simp [hparts, APNSession.connectDeferred]
      | timedOut => simp [hparts, APNSession.connectDeferred]
      | succeeded =>
        cases hh : env.handshake with
        | failed err => simp [hparts, APNSession.connectDeferred]
        | timedOut => simp [hparts, APNSession.connectDeferred]
        | succeeded => simp [hparts, APNSession.connectDeferred]
    · simp [hparts, APNSession.connectDeferred]

theorem read_buffer_length (data buffer : List Nat) :
    (data.take buffer.length ++ buffer.drop (data.take buffer.length).length).length =
      buffer.length := by
  simp only [List.length_append, List.length_take, List.length_drop]
  omega

theorem read_buffer_whole (data buffer : List Nat) (hb : buffer.length = 6)
    (hd : data.length = 6) :
    data.take buffer.length ++ buffer.drop (data.take buffer.length).length = data := by
  have h1 : data.take buffer.length = data := by
    rw [hb, ← hd]; exact List.take_length data
  rw [h1, hd, ← hb, List.drop_length, List.append_nil]

theorem newFailInfo_of_tag (buffer : List Nat) (hb : buffer.length = 6)
    (htag : buffer.getD 0 0 = 8) : ∃ info, NewFailInfoFromByte buffer = some info := by
  unfold NewFailInfoFromByte
  rw [if_neg (fun hc => hc.elim (fun h1 => h1 hb) (fun h2 => h2 htag))]
  exact ⟨_, rfl⟩

theorem isFrame_tag (r : ReadResult) (hr : r.isFrame) : r.data.getD 0 0 = 8 := by
  obtain ⟨_, hlen, hhead⟩ := hr
  obtain ⟨b0, b1, b2, b3, b4, b5, hd⟩ := list_length_six r.data hlen
  rw [hd] at hhead ⊢
  simpa using hhead

theorem publishedEvents_append (xs ys : List Effect) :
    publishedEvents (xs ++ ys) = publishedEvents xs ++ publishedEvents ys := by
  induction xs with
  | nil => rfl
  | cons x xs ih =>
    cases x <;> simp [publishedEvents, ih]

theorem publishedEvents_Close (a : APNSession) : publishedEvents a.Close.2 = [] := by
  unfold APNSession.Close
  cases hc : a.conn <;> cases ht : a.tlsConn <;> simp [hc, ht, publishedEvents]

theorem recvLoop_stop (a : APNSession) (h : Nat) (r : ReadResult) (rs : List ReadResult)
    (buffer : List Nat) (htls : a.tlsConn = some h)
    (hstop : ¬ (r.err = none ∧
      (r.data.take buffer.length ++ buffer.drop (r.data.take buffer.length).length).getD 0 0
        = 8)) :
    a.recvLoop (r :: rs) buffer = (.returned, a.Close.1, a.Close.2) := by
  rw [APNSession.recvLoop]
  simp only [htls]
  rw [if_neg hstop]

theorem recvLoop_shutdown (a : APNSession) (h : Nat) (r : ReadResult) (rs : List ReadResult)
    (buffer : List Nat) (info : FailInfo) (htls : a.tlsConn = some h)
    (hb : buffer.length = 6) (hr : r.isFrame)
    (hinfo : NewFailInfoFromByte r.data = some info) (hcode : info.Code = 10) :
    a.recvLoop (r :: rs) buffer = (.returned, a.Close.1, a.Close.2) := by
  rw [APNSession.recvLoop]
  simp only [htls, read_buffer_whole r.data buffer hb hr.2.1]
  rw [if_pos ⟨hr.1, isFrame_tag r hr⟩]
  simp only [hinfo, hcode, if_true]

theorem recvLoop_publish (a : APNSession) (h ch : Nat) (r : ReadResult)
    (rs : List ReadResult) (buffer : List Nat) (info : FailInfo) (htls : a.tlsConn = some h)
    (hch : a.ResponseChan = some ch) (hb : buffer.length = 6) (hr : r.isFrame)
    (hinfo : NewFailInfoFromByte r.data = some info) (hcode : info.Code ≠ 10) :
    a.recvLoop (r :: rs) buffer =
      ((a.recvLoop rs r.data).1, (a.recvLoop rs r.data).2.1,
        Effect.chanSend ch info :: (a.recvLoop rs r.data).2.2) := by
  rw [APNSession.recvLoop]
  simp only [htls, read_buffer_whole r.data buffer hb hr.2.1]
  rw [if_pos ⟨hr.1, isFrame_tag r hr⟩]
  simp only [hinfo, hcode, if_false, hch]

theorem recvLoop_until_shutdown (a : APNSession) (h ch : Nat) (sd : ReadResult)
    (more : List ReadResult) (htls : a.tlsConn = some h) (hch : a.ResponseChan = some ch)
    (hsd : sd.isFrame ∧ ∀ info, NewFailInfoFromByte sd.data = some info → info.Code = 10) :
    ∀ (frames : List ReadResult) (buffer : List Nat), buffer.length = 6 →
      (∀ r ∈ frames, r.isFrame ∧
        ∀ info, NewFailInfoFromByte r.data = some info → info.Code ≠ 10) →
      a.recvLoop (frames ++ sd :: more) buffer =
        (.returned, a.Close.1,
          (frames.filterMap (fun r => NewFailInfoFromByte r.data)).map (Effect.chanSend ch)
            ++ a.Close.2)
  | [], buffer, hb, _ => by
    obtain ⟨info, hinfo⟩ := newFailInfo_of_tag sd.data hsd.1.2.1 (isFrame_tag sd hsd.1)
    simpa using recvLoop_shutdown a h sd more buffer info htls hb hsd.1 hinfo (hsd.2 info hinfo)
  | r :: frames, buffer, hb, hfr => by
    have hr := hfr r (List.mem_cons_self _ _)
    obtain ⟨info, hinfo⟩ := newFailInfo_of_tag r.data hr.1.2.1 (isFrame_tag r hr.1)
    have ih := recvLoop_until_shutdown a h ch sd more htls hch hsd frames r.data hr.1.2.1
      (fun x hx => hfr x (List.mem_cons_of_mem _ hx))
    rw [List.cons_append,
      recvLoop_publish a h ch r _ buffer info htls hch hb hr.1 hinfo (hr.2 info hinfo), ih]
    simp [hinfo]

theorem publishedEvents_chanSend (ch : Nat) (infos : List FailInfo) :
    publishedEvents (infos.map (Effect.chanSend ch)) = infos := by
  induction infos with
  | nil => rfl
  | cons x xs ih => simp [publishedEvents, ih]

theorem filterMap_frames_length (frames : List ReadResult)
    (hfr : ∀ r ∈ frames, r.isFrame) :
    (frames.filterMap (fun r => NewFailInfoFromByte r.data)).length = frames.length := by
  induction frames with
  | nil => rfl
  | cons r frames ih =>
    have hr := hfr r (List.mem_cons_self _ _)
    obtain ⟨info, hinfo⟩ := newFailInfo_of_tag r.data hr.2.1 (isFrame_tag r hr)
    simp [List.filterMap_cons, hinfo, ih (fun x hx => hfr x (List.mem_cons_of_mem _ hx))]

theorem recvLoop_no_nil_info (a : APNSession) (h : Nat) (htls : a.tlsConn = some h) :
    ∀ (reads : List ReadResult) (buffer : List Nat), buffer.length = 6 →
      (a.recvLoop reads buffer).1 ≠ .nilDereference
  | [], _, _ => by simp [APNSession.recvLoop]
  | r :: rs, buffer, hb => by
    have hlen : (r.data.take buffer.length
        ++ buffer.drop (r.data.take buffer.length).length).length = 6 := by
      rw [read_buffer_length]; exact hb
    rw [APNSession.recvLoop]
    simp only [htls]
    split
    · rename_i hcond
      obtain ⟨info, hinfo⟩ := newFailInfo_of_tag _ hlen hcond.2
      simp only [hinfo]
      split
      · simp
      · have ih := recvLoop_no_nil_info a h htls rs _ hlen
        cases hch : a.ResponseChan with
        | none => simpa using ih
        | some ch => simpa using ih
    · simp

theorem RecvRespnose_run (a : APNSession) (ch : Nat) (reads : List ReadResult)
    (hch : a.ResponseChan = some ch) (hst : a.state = StateConncted) :
    a.RecvRespnose reads = a.recvLoop reads (List.replicate 6 0) := by
  unfold APNSession.RecvRespnose
  rw [if_neg]
  rintro (h | h)
  · rw [hch] at h; cases h
  · exact h hst

theorem run_single_call (env1 env2 : ConnectEnv) (a : APNSession) (pc2 : ConnectPc) :
    TwoCalls.run env1 env2 [true, true, true] ⟨a, .atCheck, pc2, []⟩ =
      ⟨(a.Connect env1).session, .finished (a.Connect env1).err, pc2,
        (a.Connect env1).effects⟩ := by
  simp only [TwoCalls.run, stepCall, APNSession.Connect]
  cases a.connectCheck <;> simp [stepCall]

/-- C11: for every session whose state is not Connected, in particular a
freshly constructed one, `Send` with a payload and a 64-character token
returns `Not Connect`, performs no write and leaves the session unchanged. -/
theorem send_not_connected {P : Type} (toJsonData : P → Except GoError (List Nat))
    (tlsWrite : List Nat → Option GoError) (i : Int) (p : P) (token : List Nat) (e : Nat)
    (htok : token.length = 64) :
    (∀ a : APNSession, a.state ≠ StateConncted →
      a.Send toJsonData tlsWrite i (some p) token e = (.value (some .notConnect), a, [])) ∧
    (∀ (gateway certificateFile keyFile : String) (responseChan : Option Nat),
      (NewAPNSession gateway certificateFile keyFile responseChan).Send toJsonData tlsWrite i
        (some p) token e =
        (.value (some .notConnect),
          NewAPNSession gateway certificateFile keyFile responseChan, [])) := by
  have h1 : ∀ a : APNSession, a.state ≠ StateConncted →
      a.Send toJsonData tlsWrite i (some p) token e = (.value (some .notConnect), a, []) := by
    intro a hst
    simp [APNSession.Send, htok, hst]
  refine ⟨h1, ?_⟩
  intro g c k ch
  apply h1
  simp [NewAPNSession, StateDisconnect, StateConncted]

/-- Witness for `send_not_connected`: the fresh sample session and the sample token. -/
theorem send_not_connected_witness :
    sampleToken.length = 64 ∧ sampleFresh.state ≠ StateConncted ∧
    sampleFresh.Send (fun (_ : Unit) => .ok [123, 125]) (fun _ => none) 7 (some ())
      sampleToken 0 = (.value (some .notConnect), sampleFresh, []) :=
  ⟨rfl, by decide,
    (send_not_connected (fun (_ : Unit) => .ok [123, 125]) (fun _ => none) 7 () sampleToken 0
      rfl).1 sampleFresh (by decide)⟩

/-- C15: `Close` is idempotent: a second `Close` leaves the session as the
first one left it and closes no handle. -/
theorem close_idempotent (a : APNSession) :
    a.Close.1.Close.1 = a.Close.1 ∧ a.Close.1.Close.2 = [] := by
  rw [Close_Close]
  exact ⟨rfl, rfl⟩

/-- C17: for a 6-byte buffer `b` of bytes with `b[0] = 8`, the decoder returns
`Code = b[1]` and `Pid = b[2] + 2^8 * b[3] + 2^16 * b[4] + 2^24 * b[5]`: the
identifier is read little-endian, so the big-endian bytes the encoder writes
for this `Pid` are `b[5], b[4], b[3], b[2]`, the four bytes in reverse. -/
theorem newFailInfo_reads_little_endian (b : List Nat) (hlen : b.length = 6)
    (hbytes : ∀ x ∈ b, x < 256) (htag : b.getD 0 0 = 8) :
    ∃ info, NewFailInfoFromByte b = some info ∧
      info.Code = b.getD 1 0 ∧
      info.Pid = b.getD 2 0 + 2 ^ 8 * b.getD 3 0 + 2 ^ 16 * b.getD 4 0 + 2 ^ 24 * b.getD 5 0 ∧
      writeUint32BE info.Pid = [b.getD 5 0, b.getD 4 0, b.getD 3 0, b.getD 2 0] := by
  obtain ⟨b0, b1, b2, b3, b4, b5, rfl⟩ := list_length_six b hlen
  simp only [List.getD_cons_zero, List.getD_cons_succ] at htag ⊢
  subst htag
  have h1 : b1 < 256 := hbytes b1 (by simp)
  have h2 : b2 < 256 := hbytes b2 (by simp)
  have h3 : b3 < 256 := hbytes b3 (by simp)
  have h4 : b4 < 256 := hbytes b4 (by simp)
  have h5 : b5 < 256 := hbytes b5 (by simp)
  refine ⟨_, newFailInfo_of_frame b1 b2 b3 b4 b5, Nat.mod_eq_of_lt h1,
    readUint32LE_bytes b2 b3 b4 b5 h2 h3 h4, ?_⟩
  simp only [readUint32LE_bytes b2 b3 b4 b5 h2 h3 h4, writeUint32BE, Nat.shiftRight_eq_div_pow,
    List.cons.injEq, and_true]
  omega

/-- Witness for `newFailInfo_reads_little_endian`: the buffer `[8, 5, 0, 0, 0, 7]`. -/
theorem newFailInfo_reads_little_endian_witness :
    ∃ info, NewFailInfoFromByte [8, 5, 0, 0, 0, 7] = some info ∧
      info.Code = ([8, 5, 0, 0, 0, 7] : List Nat).getD 1 0 ∧
      info.Pid = ([8, 5, 0, 0, 0, 7] : List Nat).getD 2 0
        + 2 ^ 8 * ([8, 5, 0, 0, 0, 7] : List Nat).getD 3 0
        + 2 ^ 16 * ([8, 5, 0, 0, 0, 7] : List Nat).getD 4 0
        + 2 ^ 24 * ([8, 5, 0, 0, 0, 7] : List Nat).getD 5 0 ∧
      writeUint32BE info.Pid =
        [([8, 5, 0, 0, 0, 7] : List Nat).getD 5 0, ([8, 5, 0, 0, 0, 7] : List Nat).getD 4 0,
          ([8, 5, 0, 0, 0, 7] : List Nat).getD 3 0, ([8, 5, 0, 0, 0, 7] : List Nat).getD 2 0] :=
  newFailInfo_reads_little_endian [8, 5, 0, 0, 0, 7] rfl (by decide) rfl

/-- C18 (failing input): after a `Connect` that succeeds and a `Close`, the
session is still in state Connected but its encrypted transport is released;
`Send` with a payload and a well-formed token passes the state check and then
performs no write and returns no error: it calls `Write` through the `nil`
handle. -/
theorem send_connected_without_transport :
    (sampleFresh.Connect sampleEnv).session.Close.1.State = StateConncted ∧
    hexDecodeString sampleToken = .ok sampleTokenBytes ∧ sampleTokenBytes.length = 32 ∧
    (sampleFresh.Connect sampleEnv).session.Close.1.Send (fun (_ : Unit) => .ok [123, 125])
      (fun _ => none) 7 (some ()) sampleToken 0 =
      (.nilDereference, (sampleFresh.Connect sampleEnv).session.Close.1, []) :=
  ⟨by decide, hexDecodeString_sampleToken, rfl, by decide⟩

/-- On a session in state Connected that holds its encrypted transport, with a
payload whose serialisation `j` is given and a token decoding to 32 bytes,
`Send` performs exactly one write, of the frame
`EncodePushNotificationToData identifier expiration token j 10`, returns the
error of that write (`nil` when it succeeds) and leaves the session, its state
and its handles as they were. -/
theorem send_writes_encoded_frame {P : Type} (toJsonData : P → Except GoError (List Nat))
    (tlsWrite : List Nat → Option GoError) (a : APNSession) (i : Int) (p : P)
    (token t j : List Nat) (e h : Nat)
    (hst : a.state = StateConncted) (htls : a.tlsConn = some h)
    (htok : hexDecodeString token = .ok t) (hlen : t.length = 32)
    (hj : toJsonData p = .ok j) :
    ∃ buf, EncodePushNotificationToData i e token j 10 = .ok buf ∧
      a.Send toJsonData tlsWrite i (some p) token e =
        (.value (tlsWrite buf), a, [Effect.tlsWrite h buf]) ∧
      (a.Send toJsonData tlsWrite i (some p) token e).2.1.state = StateConncted ∧
      (a.Send toJsonData tlsWrite i (some p) token e).2.1.tlsConn = a.tlsConn ∧
      (a.Send toJsonData tlsWrite i (some p) token e).2.1.conn = a.conn := by
  obtain ⟨buf, henc⟩ : ∃ buf, EncodePushNotificationToData i e token j 10 = .ok buf :=
    ⟨_, encode_of_token i e 10 token t j htok hlen⟩
  have h64 : token.length = 64 := by
    have := hexDecodeString_length token t htok
    omega
  have hs : a.Send toJsonData tlsWrite i (some p) token e =
      (.value (tlsWrite buf), a, [Effect.tlsWrite h buf]) := by
    simp only [APNSession.Send, h64, hst, hj, henc, htls]
    cases hw : tlsWrite buf <;> simp
  exact ⟨buf, henc, hs, by rw [hs]; exact hst, by rw [hs], by rw [hs]⟩

/-- Witness for `send_writes_encoded_frame`: the Connected sample session, the
sample token and a write that succeeds. -/
theorem send_writes_encoded_frame_witness :
    sampleConnected.state = StateConncted ∧ sampleConnected.tlsConn = some 4 ∧
    hexDecodeString sampleToken = .ok sampleTokenBytes ∧ sampleTokenBytes.length = 32 ∧
    ∃ buf, EncodePushNotificationToData 7 0 sampleToken [123, 125] 10 = .ok buf ∧
      sampleConnected.Send (fun (_ : Unit) => .ok [123, 125]) (fun _ => none) 7 (some ())
        sampleToken 0 = (.value none, sampleConnected, [Effect.tlsWrite 4 buf]) :=
  have h := send_writes_encoded_frame (fun (_ : Unit) => .ok [123, 125]) (fun _ => none)
    sampleConnected 7 () sampleToken sampleTokenBytes [123, 125] 0 4 rfl rfl
    hexDecodeString_sampleToken rfl rfl
  match h with
  | ⟨buf, h1, h2, _⟩ => ⟨rfl, rfl, hexDecodeString_sampleToken, rfl, buf, h1, h2⟩

/-- C12 (counterexample): called in state Connecting, `Connect` returns the
error `connecting` and changes nothing, so the state after it returns is
Connecting. -/
theorem connect_returns_in_connecting :
    ({ sampleFresh with state := StateConncting } : APNSession).State = StateConncting ∧
    (({ sampleFresh with state := StateConncting } : APNSession).Connect sampleEnv).err =
      some .connecting ∧
    (({ sampleFresh with state := StateConncting } : APNSession).Connect sampleEnv).session.State =
      StateConncting := by
  decide

/-- C12 (amended): with credential loading, dial and handshake outcomes given.
Called in state Connected, `Connect` returns `nil` and changes nothing; called
in state Connecting, it returns an error and changes nothing; called in state
Disconnected, it ends in state Connected with a `nil` error exactly when
credential loading succeeds, the gateway address splits into two parts on the
colon, the dial succeeds and the handshake succeeds, and otherwise it returns
an error and ends in state Disconnected. The state after `Connect` returns is
Connecting only when the call was made in state Connecting. -/
theorem connect_state_machine (env : ConnectEnv) (a : APNSession) :
    (a.state = StateConncted → a.Connect env = ⟨none, a, [], false⟩) ∧
    (a.state = StateConncting → a.Connect env = ⟨some .connecting, a, [], false⟩) ∧
    (a.state = StateDisconnect →
      (((a.Connect env).err = none ∧ (a.Connect env).session.state = StateConncted) ↔
        ((if a.CertificateBase64.length = 0 ∨ a.KeyBase64.length = 0 then env.loadX509KeyPair
            else env.x509KeyPair) = none ∧
          (splitColon a.Gateway.toList).length = 2 ∧ env.dial = .succeeded ∧
          env.handshake = .succeeded)) ∧
      (¬ ((if a.CertificateBase64.length = 0 ∨ a.KeyBase64.length = 0 then env.loadX509KeyPair
            else env.x509KeyPair) = none ∧
          (splitColon a.Gateway.toList).length = 2 ∧ env.dial = .succeeded ∧
          env.handshake = .succeeded) →
        (a.Connect env).err ≠ none ∧ (a.Connect env).session.state = StateDisconnect)) ∧
    ((a.Connect env).session.state = StateConncting → a.state = StateConncting) := by
  have hconn : a.state = StateConncted → a.Connect env = ⟨none, a, [], false⟩ := by
    intro h
    simp [APNSession.Connect, APNSession.connectCheck, h, StateConncted, StateDisconnect]
  have hing : a.state = StateConncting → a.Connect env = ⟨some .connecting, a, [], false⟩ := by
    intro h
    simp [APNSession.Connect, APNSession.connectCheck, h, StateConncted, StateDisconnect,
      StateConncting]
  have hdis : a.state = StateDisconnect → a.Connect env = a.connectMark.connectBody env := by
    intro h
    simp [APNSession.Connect, APNSession.connectCheck, h]
  have hbody := connectBody_outcome env a.connectMark
  simp only [APNSession.connectMark] at hbody
  refine ⟨hconn, hing, ?_, ?_⟩
  · intro h
    rw [hdis h]
    simp only [APNSession.connectMark]
    refine ⟨⟨?_, hbody.1⟩, hbody.2⟩
    intro hok
    by_contra hno
    exact (hbody.2 hno).1 hok.1
  · intro hafter
    by_contra hne
    by_cases h2 : a.state = StateConncted
    · rw [hconn h2] at hafter
      exact hne hafter
    · by_cases h0 : a.state = StateDisconnect
      · rw [hdis h0] at hafter
        simp only [APNSession.connectMark] at hafter
        by_cases hok : ((if a.CertificateBase64.length = 0 ∨ a.KeyBase64.length = 0 then
            env.loadX509KeyPair else env.x509KeyPair) = none ∧
            (splitColon a.Gateway.toList).length = 2 ∧ env.dial = .succeeded ∧
            env.handshake = .succeeded)
        · rw [(hbody.1 hok).2] at hafter
          revert hafter; decide
        · rw [(hbody.2 hok).2] at hafter
          revert hafter; decide
      · have : a.Connect env = ⟨some .connecting, a, [], false⟩ := by
          simp [APNSession.Connect, APNSession.connectCheck, h0, h2]
        rw [this] at hafter
        exact hne hafter

/-- Witness for `connect_state_machine`: the fresh sample session, with
credential loading, dial and handshake succeeding, ends Connected. -/
theorem connect_state_machine_witness :
    sampleFresh.state = StateDisconnect ∧
    (sampleFresh.Connect sampleEnv).err = none ∧
    (sampleFresh.Connect sampleEnv).session.state = StateConncted :=
  ⟨rfl, ((connect_state_machine sampleEnv sampleFresh).2.2.1 rfl).1.2
    ⟨rfl, by decide, rfl, rfl⟩⟩

/-- C13 (failing input): the loop ignores the byte count of a read. After the
frame `[8, 5, 0, 0, 0, 7]`, a successful read of the single byte `[8]` leaves
the other five bytes of the buffer as they were, so the first event is
published a second time before the shutdown frame is read: two events for one
frame. When the next frame `[8, 5, 0, 0, 0, 9]` arrives split into the reads
`[8]` and `[5, 0, 0, 0, 9]`, the first event is published twice, the second
frame never, and the loop closes the session on the second part. -/
theorem recv_short_read_republishes :
    publishedEvents (sampleConnected.RecvRespnose
      [⟨[8, 5, 0, 0, 0, 7], none⟩, ⟨[8], none⟩, ⟨[8, 10, 0, 0, 0, 0], none⟩]).2.2 =
      [{ Pid := 117440512, Code := 5 }, { Pid := 117440512, Code := 5 }] ∧
    NewFailInfoFromByte [8, 5, 0, 0, 0, 7] = some { Pid := 117440512, Code := 5 } ∧
    NewFailInfoFromByte [8] = none ∧
    NewFailInfoFromByte [8, 5, 0, 0, 0, 9] = some { Pid := 150994944, Code := 5 } ∧
    sampleConnected.RecvRespnose
      [⟨[8, 5, 0, 0, 0, 7], none⟩, ⟨[8], none⟩, ⟨[5, 0, 0, 0, 9], none⟩,
        ⟨[8, 10, 0, 0, 0, 0], none⟩] =
      (.returned, sampleConnected.Close.1,
        [Effect.chanSend 1 { Pid := 117440512, Code := 5 },
          Effect.chanSend 1 { Pid := 117440512, Code := 5 },
          Effect.connClose 3, Effect.tlsClose 4]) := by
  decide

/-- With a response channel, state Connected and the encrypted transport
present, reading a sequence of whole error frames with status codes other than
10, then a shutdown frame (code 10), then anything more, the receive loop sends
to the channel exactly the decoded events of the frames before the shutdown
frame, one per frame and in the order read, then closes and returns: the
shutdown event is not published, and what follows the shutdown frame has no
influence on the result. -/
theorem recv_publishes_until_shutdown (a : APNSession) (h ch : Nat)
    (frames : List ReadResult) (sd : ReadResult) (more : List ReadResult)
    (hch : a.ResponseChan = some ch) (hst : a.state = StateConncted)
    (htls : a.tlsConn = some h)
    (hframes : ∀ r ∈ frames, r.isFrame ∧
      ∀ info, NewFailInfoFromByte r.data = some info → info.Code ≠ 10)
    (hsd : sd.isFrame ∧ ∀ info, NewFailInfoFromByte sd.data = some info → info.Code = 10) :
    (a.RecvRespnose (frames ++ sd :: more)).1 = .returned ∧
    (a.RecvRespnose (frames ++ sd :: more)).2.2 =
      (frames.filterMap (fun r => NewFailInfoFromByte r.data)).map (Effect.chanSend ch)
        ++ a.Close.2 ∧
    publishedEvents (a.RecvRespnose (frames ++ sd :: more)).2.2 =
      frames.filterMap (fun r => NewFailInfoFromByte r.data) ∧
    (publishedEvents (a.RecvRespnose (frames ++ sd :: more)).2.2).length = frames.length ∧
    (∀ info ∈ publishedEvents (a.RecvRespnose (frames ++ sd :: more)).2.2, info.Code ≠ 10) ∧
    a.RecvRespnose (frames ++ sd :: more) = a.RecvRespnose (frames ++ [sd]) := by
  have hrun := recvLoop_until_shutdown a h ch sd more htls hch hsd frames (List.replicate 6 0)
    (by simp) hframes
  have hrun2 := recvLoop_until_shutdown a h ch sd [] htls hch hsd frames (List.replicate 6 0)
    (by simp) hframes
  rw [RecvRespnose_run a ch _ hch hst, RecvRespnose_run a ch _ hch hst, hrun, hrun2]
  have hpub : publishedEvents
      ((frames.filterMap (fun r => NewFailInfoFromByte r.data)).map (Effect.chanSend ch)
        ++ a.Close.2) = frames.filterMap (fun r => NewFailInfoFromByte r.data) := by
    rw [publishedEvents_append, publishedEvents_chanSend, publishedEvents_Close,
      List.append_nil]
  refine ⟨rfl, rfl, hpub, ?_, ?_, rfl⟩
  · rw [hpub]
    exact filterMap_frames_length frames (fun r hr => (hframes r hr).1)
  · rw [hpub]
    intro info hmem
    obtain ⟨r, hr, hinfo⟩ := List.mem_filterMap.mp hmem
    exact (hframes r hr).2 info hinfo

/-- Witness for `recv_publishes_until_shutdown`: on the Connected sample
session, one frame with code 5, the shutdown frame, and one more frame. -/
theorem recv_publishes_until_shutdown_witness :
    publishedEvents (sampleConnected.RecvRespnose
      ([⟨[8, 5, 0, 0, 0, 7], none⟩] ++ ⟨[8, 10, 0, 0, 0, 0], none⟩
        :: [⟨[8, 5, 0, 0, 0, 9], none⟩])).2.2 =
      ([⟨[8, 5, 0, 0, 0, 7], none⟩] : List ReadResult).filterMap
        (fun r => NewFailInfoFromByte r.data) :=
  (recv_publishes_until_shutdown sampleConnected 4 1 [⟨[8, 5, 0, 0, 0, 7], none⟩]
    ⟨[8, 10, 0, 0, 0, 0], none⟩ [⟨[8, 5, 0, 0, 0, 9], none⟩] rfl rfl rfl
    (by
      intro r hr
      simp only [List.mem_singleton] at hr
      subst hr
      refine ⟨⟨rfl, rfl, rfl⟩, ?_⟩
      intro info hinfo
      cases hinfo
      decide)
    ⟨⟨rfl, rfl, rfl⟩, by
      intro info hinfo
      cases hinfo
      decide⟩).2.2.1

/-- C14 (counterexample): on the Connected sample session a successful read
of six bytes starting with 7 closes the session and ends the loop; the error
frame that follows it is not published. -/
theorem recv_unrecognized_chunk_counterexample :
    (sampleConnected.RecvRespnose
      [⟨[7, 5, 0, 0, 0, 7], none⟩, ⟨[8, 5, 0, 0, 0, 7], none⟩]).1 = .returned ∧
    (sampleConnected.RecvRespnose
      [⟨[7, 5, 0, 0, 0, 7], none⟩, ⟨[8, 5, 0, 0, 0, 7], none⟩]).2.1.tlsConn = none ∧
    (sampleConnected.RecvRespnose
      [⟨[7, 5, 0, 0, 0, 7], none⟩, ⟨[8, 5, 0, 0, 0, 7], none⟩]).2.2 =
      [Effect.connClose 3, Effect.tlsClose 4] ∧
    publishedEvents (sampleConnected.RecvRespnose
      [⟨[7, 5, 0, 0, 0, 7], none⟩, ⟨[8, 5, 0, 0, 0, 7], none⟩]).2.2 = [] ∧
    NewFailInfoFromByte [8, 5, 0, 0, 0, 7] = some { Pid := 117440512, Code := 5 } := by
  decide

/-- C14 (amended): the receive loop exits on a transport read failure, on a
decoded shutdown code, and on a successfully read 6-byte chunk whose first
byte is not 8: such a chunk yields no event, closes the session and ends the
loop, so the frames after it are not published. After a recognised frame with
another code than 10 the loop publishes the event and goes on reading. -/
theorem recv_loop_exits (a : APNSession) (h ch : Nat) (r : ReadResult)
    (rs : List ReadResult) (hch : a.ResponseChan = some ch) (hst : a.state = StateConncted)
    (htls : a.tlsConn = some h) :
    (r.err ≠ none ∨ (r.err = none ∧ r.data.length = 6 ∧ r.data.head? ≠ some 8) →
      a.RecvRespnose (r :: rs) = (.returned, a.Close.1, a.Close.2) ∧
      publishedEvents (a.RecvRespnose (r :: rs)).2.2 = [] ∧
      (a.RecvRespnose (r :: rs)).2.1.conn = none ∧
      (a.RecvRespnose (r :: rs)).2.1.tlsConn = none) ∧
    (∀ info, r.isFrame → NewFailInfoFromByte r.data = some info → info.Code = 10 →
      a.RecvRespnose (r :: rs) = (.returned, a.Close.1, a.Close.2)) ∧
    (∀ info, r.isFrame → NewFailInfoFromByte r.data = some info → info.Code ≠ 10 →
      a.RecvRespnose (r :: rs) =
        ((a.recvLoop rs r.data).1, (a.recvLoop rs r.data).2.1,
          Effect.chanSend ch info :: (a.recvLoop rs r.data).2.2)) := by
  have hb : (List.replicate 6 0 : List Nat).length = 6 := by simp
  rw [RecvRespnose_run a ch _ hch hst]
  refine ⟨?_, ?_, ?_⟩
  · intro hbad
    have hstop : ¬ (r.err = none ∧
        (r.data.take (List.replicate 6 0 : List Nat).length
          ++ (List.replicate 6 0 : List Nat).drop
            (r.data.take (List.replicate 6 0 : List Nat).length).length).getD 0 0 = 8) := by
      rintro ⟨herr, htag⟩
      rcases hbad with hbad | ⟨_, hlen, hbad⟩
      · exact hbad herr
      · rw [read_buffer_whole r.data _ hb hlen] at htag
        apply hbad
        obtain ⟨b0, b1, b2, b3, b4, b5, hd⟩ := list_length_six r.data hlen
        rw [hd] at htag ⊢
        simpa using htag
    rw [recvLoop_stop a h r rs _ htls hstop]
    exact ⟨rfl, publishedEvents_Close a, Close_conn a, Close_tlsConn a⟩
  · intro info hr hinfo hcode
    exact recvLoop_shutdown a h r rs _ info htls hb hr hinfo hcode
  · intro info hr hinfo hcode
    exact recvLoop_publish a h ch r rs _ info htls hch hb hr hinfo hcode

/-- Witness for `recv_loop_exits`: on the Connected sample session, a
successful read of six bytes starting with 7, followed by an error frame. -/
theorem recv_loop_exits_witness :
    sampleConnected.RecvRespnose [⟨[7, 5, 0, 0, 0, 7], none⟩, ⟨[8, 5, 0, 0, 0, 7], none⟩] =
      (.returned, sampleConnected.Close.1, sampleConnected.Close.2) ∧
    publishedEvents (sampleConnected.RecvRespnose
      [⟨[7, 5, 0, 0, 0, 7], none⟩, ⟨[8, 5, 0, 0, 0, 7], none⟩]).2.2 = [] :=
  have h := (recv_loop_exits sampleConnected 4 1 ⟨[7, 5, 0, 0, 0, 7], none⟩
    [⟨[8, 5, 0, 0, 0, 7], none⟩] rfl rfl rfl).1 (Or.inr ⟨rfl, rfl, by decide⟩)
  ⟨h.1, h.2.1⟩

/-- C16 (failing schedule): two calls of `Connect` on the fresh sample session,
with dial and handshake succeeding for both. When both calls make the state
check before either assigns `StateConncting`, both pass it, both dial and
shake hands, and both return `nil`; the error `connecting` is returned only
when the second check runs after the first call has assigned the state. -/
theorem concurrent_connect_both_proceed :
    (TwoCalls.run sampleEnv sampleEnv [true, false, true, false, true, false]
      ⟨sampleFresh, .atCheck, .atCheck, []⟩).pc1 = .finished none ∧
    (TwoCalls.run sampleEnv sampleEnv [true, false, true, false, true, false]
      ⟨sampleFresh, .atCheck, .atCheck, []⟩).pc2 = .finished none ∧
    (TwoCalls.run sampleEnv sampleEnv [true, false, true, false, true, false]
      ⟨sampleFresh, .atCheck, .atCheck, []⟩).effects =
      [Effect.netDial, Effect.tlsHandshake 4, Effect.netDial, Effect.tlsHandshake 4] ∧
    (TwoCalls.run sampleEnv sampleEnv [true, true, false, true]
      ⟨sampleFresh, .atCheck, .atCheck, []⟩).pc1 = .finished none ∧
    (TwoCalls.run sampleEnv sampleEnv [true, true, false, true]
      ⟨sampleFresh, .atCheck, .atCheck, []⟩).pc2 = .finished (some .connecting) := by
  decide

/-- C19 (failing trace): from a fresh session, a `Connect` that succeeds gives
state Connected with the encrypted transport present; `Close` then releases the
transport and leaves the state Connected, so the invariant is broken, and a
`Send` after it does not return `Not Connect` but calls `Write` through the
released (`nil`) handle. -/
theorem connected_without_transport_after_close :
    sampleFresh.State = StateDisconnect ∧
    (sampleFresh.Connect sampleEnv).err = none ∧
    (sampleFresh.Connect sampleEnv).session.State = StateConncted ∧
    (sampleFresh.Connect sampleEnv).session.tlsConn = some 4 ∧
    (sampleFresh.Connect sampleEnv).session.Close.1.State = StateConncted ∧
    (sampleFresh.Connect sampleEnv).session.Close.1.tlsConn = none ∧
    ((sampleFresh.Connect sampleEnv).session.Close.1.Send (fun (_ : Unit) => .ok [123, 125])
      (fun _ => none) 7 (some ()) sampleToken 0).1 = .nilDereference ∧
    ((sampleFresh.Connect sampleEnv).session.Close.1.Send (fun (_ : Unit) => .ok [123, 125])
      (fun _ => none) 7 (some ()) sampleToken 0).1 ≠ .value (some .notConnect) := by
  decide

/-- C20: in the receive loop the read buffer always has length 6, and for a
buffer of length 6 with first byte 8 `NewFailInfoFromByte` returns an event;
so with the encrypted transport present the loop never dereferences a `nil`
pointer, whatever it reads: the access `info.Code` is safe. -/
theorem recv_info_access_safe :
    (∀ data buffer : List Nat, buffer.length = 6 →
      (data.take buffer.length ++ buffer.drop (data.take buffer.length).length).length = 6) ∧
    (∀ buffer : List Nat, buffer.length = 6 → buffer.getD 0 0 = 8 →
      ∃ info, NewFailInfoFromByte buffer = some info) ∧
    (∀ (a : APNSession) (reads : List ReadResult), a.tlsConn ≠ none →
      (a.RecvRespnose reads).1 ≠ .nilDereference) := by
  refine ⟨?_, newFailInfo_of_tag, ?_⟩
  · intro data buffer hb
    rw [read_buffer_length]; exact hb
  · intro a reads htls
    cases h : a.tlsConn with
    | none => exact absurd h htls
    | some t =>
      unfold APNSession.RecvRespnose
      split
      · simp
      · exact recvLoop_no_nil_info a t h reads _ (by simp)

/-- Witness for `recv_info_access_safe`: the Connected sample session reading
an error frame and then a short read. -/
theorem recv_info_access_safe_witness :
    sampleConnected.tlsConn ≠ none ∧
    (sampleConnected.RecvRespnose [⟨[8, 5, 0, 0, 0, 7], none⟩, ⟨[8], none⟩]).1
      ≠ .nilDereference :=
  ⟨by decide, recv_info_access_safe.2.2 sampleConnected
    [⟨[8, 5, 0, 0, 0, 7], none⟩, ⟨[8], none⟩] (by decide)⟩

end JlApns
